import Mathlib

/-!
A verification development for the `logsv` distributed log-monitoring system
(server: `src/server/index.js`, agent: `src/agent/index.js`).

The JavaScript source is shallowly embedded below.  Pure functions become Lean
functions over `String` / `List Char`; stateful classes (`MemoryStore`,
`FileTailer`, the agent's reconnect logic, the server's agent registry) become
explicit state passing.  Effect inputs that the code reads from the environment
(`Date.now()`, `new Date().toISOString()`, `crypto.randomBytes(...)`) are
threaded as parameters.  JavaScript built-ins used by the code (regular
expression matching as performed by `String.replace`/`String.match`/`.test`,
`JSON.parse`, `String.prototype.toLowerCase`/`toUpperCase`/`trim`) are modelled
directly over `List Char`, following ECMAScript semantics for the concrete
patterns that appear in the source (ASCII case mapping; `\s`/`trim` use the
common ASCII whitespace characters).  `Date` parsing/formatting is modelled by
an order-preserving timeline for the ISO-8601 strings the system generates; the
claims below depend only on relative offsets, never on rendered dates.
Exceptions become `Except Unit`.
-/

namespace LogSV

/-! ## Character classes (ECMAScript `\d`, `\w`, `\s`, ASCII case mapping)

Stated over `Char.toNat` code points ('0' = 48, 'A' = 65, 'a' = 97, …). -/

def isDigitCh (c : Char) : Bool := 48 ≤ c.toNat && c.toNat ≤ 57

def isWordCh (c : Char) : Bool :=
  isDigitCh c || (97 ≤ c.toNat && c.toNat ≤ 122) || (65 ≤ c.toNat && c.toNat ≤ 90)
    || c.toNat = 95

def isSpaceCh (c : Char) : Bool :=
  c.toNat = 32 || c.toNat = 9 || c.toNat = 10 || c.toNat = 13 || c.toNat = 11 || c.toNat = 12

def isHexCh (c : Char) : Bool :=
  isDigitCh c || (97 ≤ c.toNat && c.toNat ≤ 102) || (65 ≤ c.toNat && c.toNat ≤ 70)

def jsLowerC (c : Char) : Char :=
  if 65 ≤ c.toNat ∧ c.toNat ≤ 90 then Char.ofNat (c.toNat + 32) else c

def jsUpperC (c : Char) : Char :=
  if 97 ≤ c.toNat ∧ c.toNat ≤ 122 then Char.ofNat (c.toNat - 32) else c

def lowerL (l : List Char) : List Char := l.map jsLowerC

def upperL (l : List Char) : List Char := l.map jsUpperC

/-- `String.prototype.trim`, over char lists. -/
def trimL (l : List Char) : List Char :=
  ((l.dropWhile isSpaceCh).reverse.dropWhile isSpaceCh).reverse

def jsToLowerCase (s : String) : String := ⟨lowerL s.data⟩

def jsToUpperCase (s : String) : String := ⟨upperL s.data⟩

def jsTrim (s : String) : String := ⟨trimL s.data⟩

/-- `String.prototype.includes`, over char lists: naive substring search. -/
def subAt : List Char → List Char → Bool
  | [], _ => true
  | _ :: _, [] => false
  | n :: ns, h :: hs => n = h && subAt ns hs

def containsSubL (hay needle : List Char) : Bool :=
  match hay with
  | [] => needle.isEmpty
  | _ :: t => subAt needle hay || containsSubL t needle

def jsIncludes (hay needle : String) : Bool := containsSubL hay.data needle.data

def jsStartsWith (s pre : String) : Bool := subAt pre.data s.data

/-! ## The three substitution passes of `MemoryStore.normalizeMessage`

`message.replace(ts, 'TIMESTAMP').replace(num, 'NUMBER').replace(uuid, 'UUID')
.toLowerCase().trim()` where
`ts = /\d{4}-\d{2}-\d{2}[T\s]\d{2}:\d{2}:\d{2}(\.\d{3})?[Z]?/g`,
`num = /\b\d+\b/g`,
`uuid = /[a-f0-9]{8}-[a-f0-9]{4}-[a-f0-9]{4}-[a-f0-9]{4}-[a-f0-9]{12}/gi`.
Each scanner walks the string left to right, replacing non-overlapping
leftmost matches, exactly as a global `String.replace`. -/

/-- Consume exactly `n` characters satisfying `p`; return the rest. -/
def takeClass (p : Char → Bool) : Nat → List Char → Option (List Char)
  | 0, l => some l
  | _ + 1, [] => none
  | n + 1, c :: cs => if p c then takeClass p n cs else none

/-- Consume one literal character. -/
def takeLit (ch : Char) : List Char → Option (List Char)
  | [] => none
  | c :: cs => if c = ch then some cs else none

/-- Sequence two piece matchers. -/
def seqm (f g : List Char → Option (List Char)) (l : List Char) : Option (List Char) :=
  match f l with
  | some l2 => g l2
  | none => none

/-- A greedy optional piece (`(...)?`): take the match if it is there. -/
def optm (f : List Char → Option (List Char)) (l : List Char) : Option (List Char) :=
  match f l with
  | some l2 => some l2
  | none => some l

/-- `f` consumes at least `n` characters whenever it succeeds. -/
def Consumes (f : List Char → Option (List Char)) (n : Nat) : Prop :=
  ∀ l r, f l = some r → r.length + n ≤ l.length

/-- Match `\d{4}-\d{2}-\d{2}[T\s]\d{2}:\d{2}:\d{2}(\.\d{3})?[Z]?` at the head;
`ci` selects the case-insensitive variant (the parser's pattern carries `/i`,
the store's does not).  Returns the rest after the (greedy) match. -/
def tsMatch (ci : Bool) : List Char → Option (List Char) :=
  seqm (takeClass isDigitCh 4) (seqm (takeLit '-')
    (seqm (takeClass isDigitCh 2) (seqm (takeLit '-')
      (seqm (takeClass isDigitCh 2)
        (seqm (takeClass (fun c => c = 'T' || (ci && c = 't') || isSpaceCh c) 1)
          (seqm (takeClass isDigitCh 2) (seqm (takeLit ':')
            (seqm (takeClass isDigitCh 2) (seqm (takeLit ':')
              (seqm (takeClass isDigitCh 2)
                (seqm (optm (seqm (takeLit '.') (takeClass isDigitCh 3)))
                  (optm (takeClass (fun c => c = 'Z' || (ci && c = 'z')) 1)))))))))))))

/-- One global-replace scan: at each position try `m`; on a match emit `tok`
and continue after the matched region, else copy one character.  `fuel` bounds
the number of scan steps; since every step consumes at least one input
character, `fuel = input length + 1` makes the bound unreachable (each matcher
below consumes ≥ 1 on success, see the `Consumes` lemmas). -/
def scanReplace (m : List Char → Option (List Char)) (tok : List Char) :
    Nat → List Char → List Char
  | 0, l => l
  | _ + 1, [] => []
  | fuel + 1, c :: cs =>
    match m (c :: cs) with
    | some rest => tok ++ scanReplace m tok fuel rest
    | none => c :: scanReplace m tok fuel cs

/-- `replace(/\d{4}-\d{2}-\d{2}[T\s]\d{2}:\d{2}:\d{2}(\.\d{3})?[Z]?/g, 'TIMESTAMP')`. -/
def replaceT (l : List Char) : List Char :=
  scanReplace (tsMatch false)
    ('T' :: 'I' :: 'M' :: 'E' :: 'S' :: 'T' :: 'A' :: 'M' :: 'P' :: []) (l.length + 1) l

/-- The scan for `replace(/\b\d+\b/g, 'NUMBER')`; `pw` records whether the
character left of the current position is a word character (for `\b`).
Fuel-bounded: every step consumes at least one character. -/
def scanNum (pw : Bool) : Nat → List Char → List Char
  | 0, l => l
  | _ + 1, [] => []
  | fuel + 1, c :: cs =>
    if pw = false && isDigitCh c then
      if ((c :: cs).dropWhile isDigitCh).head?.all (fun c2 => !isWordCh c2) then
        ('N' :: 'U' :: 'M' :: 'B' :: 'E' :: 'R' :: []) ++
          scanNum true fuel ((c :: cs).dropWhile isDigitCh)
      else
        c :: scanNum true fuel cs
    else
      c :: scanNum (isWordCh c) fuel cs

def replaceN (pw : Bool) (l : List Char) : List Char := scanNum pw (l.length + 1) l

/-- Match the UUID shape `[a-f0-9]{8}-(..{4}-){3}..{12}` at the head. -/
def uuidMatch : List Char → Option (List Char) :=
  seqm (takeClass isHexCh 8) (seqm (takeLit '-')
    (seqm (takeClass isHexCh 4) (seqm (takeLit '-')
      (seqm (takeClass isHexCh 4) (seqm (takeLit '-')
        (seqm (takeClass isHexCh 4) (seqm (takeLit '-')
          (takeClass isHexCh 12))))))))

/-- `replace(/[a-f0-9]{8}-..-..-..-[a-f0-9]{12}/gi, 'UUID')`. -/
def replaceU (l : List Char) : List Char :=
  scanReplace uuidMatch ('U' :: 'U' :: 'I' :: 'D' :: []) (l.length + 1) l

/-- `MemoryStore.normalizeMessage` (src/server/index.js lines 103-110). -/
def normalizeMessage (s : String) : String :=
  ⟨trimL (lowerL (replaceU (replaceN false (replaceT s.data))))⟩

/-! ## `Date` model

`new Date(str).getTime()` is modelled for the strict ISO-8601 UTC form
`YYYY-MM-DDTHH:MM:SS(.mmm)?Z` that this system itself produces for
`timestamp`/`lastSeen` fields; every other string is modelled as an invalid
date (`NaN`, for which every `>` comparison in the code is false).  The
returned number uses an order-preserving timeline (31-day months, 12-month
years); all comparisons in the code are against offsets of at most one hour
from `Date.now()`, which this timeline renders faithfully. -/

def readFixedNat : Nat → Nat → List Char → Option (Nat × List Char)
  | 0, acc, l => some (acc, l)
  | _ + 1, _, [] => none
  | n + 1, acc, c :: cs =>
    if isDigitCh c then readFixedNat n (acc * 10 + (c.toNat - 48)) cs else none

/-- Read a fixed-width number followed by a literal separator. -/
def readSeq : List (Nat × Char) → List Char → Option (List Nat × List Char)
  | [], l => some ([], l)
  | (n, sep) :: rest, l =>
    match readFixedNat n 0 l with
    | none => none
    | some (v, l2) =>
      match takeLit sep l2 with
      | none => none
      | some l3 =>
        match readSeq rest l3 with
        | none => none
        | some (vs, l4) => some (v :: vs, l4)

def jsDateMs (s : String) : Option Int :=
  match readSeq [(4, '-'), (2, '-'), (2, 'T'), (2, ':'), (2, ':')] s.data with
  | some ([y, mo, d, h, mi], l) =>
    match readFixedNat 2 0 l with
    | some (se, l2) =>
      match (match l2 with
        | '.' :: rest => readFixedNat 3 0 rest
        | _ => some (0, l2)) with
      | some (ms, l3) =>
        match takeLit 'Z' l3 with
        | some l4 =>
          if l4.isEmpty then
            some ((((((((y * 12 + mo) * 31 + d) * 24 + h) * 60 + mi) * 60 + se) * 1000 + ms
              : Nat) : Int))
          else none
        | none => none
      | none => none
    | none => none
  | _ => none

/-! ## `MemoryStore` (src/server/index.js lines 9-247)

`Date.now()`, `new Date().toISOString()` and `crypto.randomBytes(8).toString('hex')`
are environment inputs, threaded into `addError` as `nowMs`, `nowIso`, `freshId`. -/

/-- The `semantics` boolean feature vector attached by the agent's parser. -/
structure Semantics where
  hasIpAddress : Bool
  hasUrl : Bool
  hasStatusCode : Bool
  hasTimestamp : Bool
  hasDatabase : Bool
  hasNetwork : Bool
  hasAuth : Bool
  hasMemory : Bool
  hasSecurity : Bool
deriving DecidableEq, Repr

/-- The `error.data` payload of an agent `error` message (the object passed to
`MemoryStore.addError`); see `LogScopeAgent.sendError`.  `timestamp` is
optional because `addError` guards it with `error.timestamp || now`. -/
structure IncomingError where
  serverId : String
  serverName : String
  logFile : String
  errorMessage : String
  lineNumber : Nat
  timestamp : Option String
  parser : String
  urgency : Nat
  semantics : Semantics
deriving DecidableEq, Repr

/-- A record in `MemoryStore.errors` after `addError` has enriched it. -/
structure StoredError where
  id : String
  serverId : String
  serverName : String
  logFile : String
  errorMessage : String
  lineNumber : Nat
  timestamp : String
  parser : String
  urgency : Nat
  semantics : Semantics
  category : String
  severity : String
  count : Nat
  firstSeen : String
  lastSeen : String
  trend : String
deriving DecidableEq, Repr

structure PatternEntry where
  count : Nat
  servers : List String
  lastSeen : Option String
deriving DecidableEq, Repr

/-- An AI insight; the JS field `type` is spelled `itype` here. -/
structure Insight where
  itype : String
  title : String
  description : String
  confidence : Nat
  pattern : Option String
deriving DecidableEq, Repr

structure MemoryStore where
  errors : List StoredError
  insights : List Insight
  patterns : List (String × PatternEntry)
  maxErrors : Nat
deriving DecidableEq, Repr

/-- A fresh `MemoryStore` (constructor, lines 10-16). -/
def emptyStore : MemoryStore := { errors := [], insights := [], patterns := [], maxErrors := 1000 }

/-- The keyword table of `categorizeError`, in object-literal order. -/
def categoriesList : List (String × List String) :=
  [("Database Connectivity", ["connection", "timeout", "database", "db", "mysql", "postgres", "mongo"]),
   ("Authentication", ["auth", "login", "password", "token", "permission", "unauthorized", "401", "403"]),
   ("Network Issues", ["network", "dns", "host", "unreachable", "connection refused", "timeout"]),
   ("File System", ["file", "directory", "permission denied", "disk", "space", "io error"]),
   ("Memory Issues", ["memory", "oom", "heap", "stack overflow", "out of memory"]),
   ("Data Processing", ["json", "parse", "format", "invalid", "malformed", "corrupt"]),
   ("Resource Management", ["queue", "pool", "limit", "capacity", "overflow", "resource"]),
   ("Configuration", ["config", "setting", "parameter", "missing", "invalid config"]),
   ("API Issues", ["api", "endpoint", "route", "404", "500", "service unavailable"]),
   ("Security", ["security", "attack", "breach", "suspicious", "blocked", "firewall"])]

/-- `MemoryStore.categorizeError` (lines 52-75). -/
def categorizeError (message : String) : String :=
  let msg := jsToLowerCase message
  match categoriesList.find? (fun ck => ck.2.any (fun k => jsIncludes msg k)) with
  | some ck => ck.1
  | none => "General"

/-- `MemoryStore.calculateSeverity` (lines 78-92). -/
def calculateSeverity (message : String) : String :=
  let msg := jsToLowerCase message
  if ["fatal", "critical", "emergency", "panic", "severe"].any (fun w => jsIncludes msg w) then
    "critical"
  else if ["error", "fail", "exception", "timeout", "refused", "denied"].any (fun w => jsIncludes msg w) then
    "high"
  else if ["warn", "warning", "deprecated", "retry"].any (fun w => jsIncludes msg w) then
    "medium"
  else
    "low"

/-- The `findSimilarError` comparison (lines 95-101). -/
def similarTo (e : IncomingError) (r : StoredError) : Bool :=
  r.serverId == e.serverId && r.logFile == e.logFile &&
    normalizeMessage r.errorMessage == normalizeMessage e.errorMessage

/-- `MemoryStore.findSimilarError`: first stored record with the same
fingerprint (`Array.prototype.find`). -/
def findSimilarError (errors : List StoredError) (e : IncomingError) : Option StoredError :=
  errors.find? (similarTo e)

/-- In-place mutation of the first record matching `p` (the aliasing of the
object returned by `find` back into `this.errors`). -/
def dupUpdate (p : StoredError → Bool) (g : StoredError → StoredError) :
    List StoredError → List StoredError
  | [] => []
  | r :: rs => if p r then g r :: rs else r :: dupUpdate p g rs

/-- `new Date(e.lastSeen).getTime() > now - 3600000` (NaN compares false). -/
def jsRecent (lastSeen : String) (nowMs : Int) : Bool :=
  match jsDateMs lastSeen with
  | some t => nowMs - 3600000 < t
  | none => false

/-- `MemoryStore.calculateTrend` (lines 112-127). -/
def calculateTrend (errors : List StoredError) (err : StoredError) (nowMs : Int) : String :=
  let recentCount := (errors.filter (fun e =>
    e.id != err.id &&
    normalizeMessage e.errorMessage == normalizeMessage err.errorMessage &&
    jsRecent e.lastSeen nowMs)).length
  if recentCount = 0 then "new"
  else if recentCount > 5 then "increasing"
  else if recentCount < 2 then "decreasing"
  else "stable"

/-- `Map.prototype.set` semantics: update in place, else append. -/
def mapUpdate (k : String) (f : Option PatternEntry → PatternEntry) :
    List (String × PatternEntry) → List (String × PatternEntry)
  | [] => [(k, f none)]
  | (k2, v) :: rest =>
    if k2 = k then (k2, f (some v)) :: rest else (k2, v) :: mapUpdate k f rest

/-- `Set.prototype.add` semantics over an insertion-ordered list. -/
def addServer (s : String) (l : List String) : List String :=
  if l.contains s then l else l ++ [s]

/-- `MemoryStore.updatePatterns` minus its trailing `generateInsights()` call
(lines 129-141); the caller sequences the two. -/
def updatePatterns (pats : List (String × PatternEntry)) (e : StoredError) :
    List (String × PatternEntry) :=
  let k := normalizeMessage e.errorMessage
  mapUpdate k (fun cur =>
    let c := match cur with
      | some x => x
      | none => { count := 0, servers := [], lastSeen := none }
    { count := c.count + 1, servers := addServer e.serverId c.servers,
      lastSeen := some e.timestamp }) pats

def natStr (n : Nat) : String := Nat.repr n

/-- `Math.round((num / den) * 100)` computed rationally (`den > 0` at the one
call site, where `den ≥ 11`). -/
def jsRoundPct (num den : Nat) : Nat := (200 * num + den) / (2 * den)

/-- `categories[e.category] = (categories[e.category] || 0) + 1` over an
insertion-ordered object. -/
def bumpCat (k : String) : List (String × Nat) → List (String × Nat)
  | [] => [(k, 1)]
  | (k2, n) :: rest => if k2 = k then (k2, n + 1) :: rest else (k2, n) :: bumpCat k rest

def catCounts (es : List StoredError) : List (String × Nat) :=
  es.foldl (fun acc e => bumpCat e.category acc) []

/-- Head of `Object.entries(categories).sort(([,a],[,b]) => b - a)`: a stable
descending sort puts the first-inserted maximal entry first. -/
def argmaxCat (l : List (String × Nat)) : Option (String × Nat) :=
  l.foldl (fun acc kv =>
    match acc with
    | none => some kv
    | some b => if kv.2 > b.2 then some kv else acc) none

/-- `MemoryStore.generateInsights` (lines 143-197). -/
def generateInsights (errors : List StoredError) (patterns : List (String × PatternEntry))
    (nowMs : Int) : List Insight :=
  let patIns := patterns.filterMap (fun pd =>
    if pd.2.count > 5 && pd.2.servers.length > 1 then
      some { itype := "pattern", title := "Cross-server error pattern detected",
             description := "Similar errors occurring across " ++ natStr pd.2.servers.length
               ++ " servers",
             confidence := min 95 (60 + pd.2.count * 2), pattern := some pd.1 }
    else none)
  let recent := errors.filter (fun e => jsRecent e.lastSeen nowMs)
  let anomIns := if recent.length > 10 then
      match argmaxCat (catCounts recent) with
      | some top =>
        if top.2 > 3 then
          [{ itype := "anomaly", title := "Spike in " ++ top.1 ++ " errors",
             description := natStr top.2 ++ " errors in the last hour - "
               ++ natStr (jsRoundPct top.2 recent.length) ++ "% of all recent errors",
             confidence := 85, pattern := none }]
        else []
      | none => []
    else []
  let dbCount := (errors.filter (fun e => e.category == "Database Connectivity")).length
  let recommendIns := if dbCount > 3 then
      [{ itype := "recommendation", title := "Database connection optimization needed",
         description := "Consider implementing connection pooling and retry mechanisms",
         confidence := 78, pattern := none }]
    else []
  (patIns ++ anomIns ++ recommendIns).take 5

/-- `error.timestamp = error.timestamp || new Date().toISOString()` (line 23). -/
def tsOf (e : IncomingError) (nowIso : String) : String :=
  match e.timestamp with
  | some t => if t = "" then nowIso else t
  | none => nowIso

/-- `MemoryStore.addError` (lines 18-49).  Environment inputs: `nowMs` is
`Date.now()`, `nowIso` is `new Date().toISOString()`, `freshId` is
`generateId()`.  Returns the updated store and the returned record. -/
def addError (st : MemoryStore) (e : IncomingError) (nowMs : Int) (nowIso freshId : String) :
    MemoryStore × StoredError :=
  let cat := categorizeError e.errorMessage
  let sev := calculateSeverity e.errorMessage
  let ts := tsOf e nowIso
  match findSimilarError st.errors e with
  | some ex =>
    let ex1 : StoredError := { ex with count := ex.count + 1, lastSeen := ts }
    let errs1 := dupUpdate (similarTo e) (fun _ => ex1) st.errors
    let ex2 : StoredError := { ex1 with trend := calculateTrend errs1 ex1 nowMs }
    let errs2 := dupUpdate (similarTo e) (fun _ => ex2) errs1
    ({ st with errors := errs2 }, ex2)
  | none =>
    let ne : StoredError := {
      id := freshId, serverId := e.serverId, serverName := e.serverName,
      logFile := e.logFile, errorMessage := e.errorMessage, timestamp := ts,
      category := cat, severity := sev, firstSeen := ts, lastSeen := ts,
      trend := "new", lineNumber := e.lineNumber, urgency := e.urgency,
      count := 1, parser := e.parser, semantics := e.semantics }
    let errs1 := ne :: st.errors
    let errs2 := if errs1.length > st.maxErrors then errs1.take st.maxErrors else errs1
    let pats2 := updatePatterns st.patterns ne
    let ins := generateInsights errs2 pats2 nowMs
    ({ st with errors := errs2, patterns := pats2, insights := ins }, ne)

/-- One `addError` call with its environment inputs. -/
structure AddCall where
  e : IncomingError
  nowMs : Int
  nowIso : String
  freshId : String
deriving Repr

def runAdds (st : MemoryStore) : List AddCall → MemoryStore
  | [] => st
  | c :: cs => runAdds (addError st c.e c.nowMs c.nowIso c.freshId).1 cs

/-! ## JSON values and `JSON.parse` (used by `SmartLogParser.parseJSON`)

`JSON.parse` is modelled by a recursive-descent parser for the JSON grammar;
`none` stands for a thrown `SyntaxError`.  Numbers keep their sign, integer
part, fraction digits and exponent (enough to decide ECMAScript truthiness
exactly); `\uXXXX` escapes decode through `Char.ofNat`, which maps the
surrogate range to NUL — no claim depends on such strings.  The scan fuel is
one more than the input length; every recursive step consumes at least one
character, so the bound is unreachable. -/

inductive JValue where
  | jnull : JValue
  | jbool : Bool → JValue
  | jnum : Bool → Nat → List Nat → Int → JValue
  | jstr : String → JValue
  | jarr : List JValue → JValue
  | jobj : List (String × JValue) → JValue
deriving Repr

def JValue.isStrB : JValue → Bool
  | .jstr _ => true
  | _ => false

def JValue.isNullB : JValue → Bool
  | .jnull => true
  | _ => false

/-- ECMAScript truthiness of a JSON value (note `0`, `-0`, `""` are falsy). -/
def jvTruthy : JValue → Bool
  | .jnull => false
  | .jbool b => b
  | .jnum _ ip fr _ => !(ip == 0 && fr.all (fun d => d == 0))
  | .jstr s => !(s == "")
  | .jarr _ => true
  | .jobj _ => true

def jsonWsCh (c : Char) : Bool := c = ' ' || c = '\t' || c = '\n' || c = '\r'

def skipJsonWs (l : List Char) : List Char := l.dropWhile jsonWsCh

def hexVal (c : Char) : Option Nat :=
  if isDigitCh c then some (c.toNat - 48)
  else if 'a' ≤ c && c ≤ 'f' then some (c.toNat - 87)
  else if 'A' ≤ c && c ≤ 'F' then some (c.toNat - 55)
  else none

def lexHex4 : List Char → Option (Nat × List Char)
  | a :: b :: c :: d :: rest =>
    match hexVal a, hexVal b, hexVal c, hexVal d with
    | some va, some vb, some vc, some vd => some (((va * 16 + vb) * 16 + vc) * 16 + vd, rest)
    | _, _, _, _ => none
  | _ => none

/-- Lex a JSON string body (after the opening quote). -/
def lexStr : Nat → List Char → List Char → Option (String × List Char)
  | 0, _, _ => none
  | _ + 1, _, [] => none
  | fuel + 1, acc, c :: cs =>
    if c = '"' then some (⟨acc.reverse⟩, cs)
    else if c = '\\' then
      match cs with
      | [] => none
      | e :: cs2 =>
        if e = '"' then lexStr fuel ('"' :: acc) cs2
        else if e = '\\' then lexStr fuel ('\\' :: acc) cs2
        else if e = '/' then lexStr fuel ('/' :: acc) cs2
        else if e = 'b' then lexStr fuel ('\x08' :: acc) cs2
        else if e = 'f' then lexStr fuel ('\x0c' :: acc) cs2
        else if e = 'n' then lexStr fuel ('\n' :: acc) cs2
        else if e = 'r' then lexStr fuel ('\r' :: acc) cs2
        else if e = 't' then lexStr fuel ('\t' :: acc) cs2
        else if e = 'u' then
          match lexHex4 cs2 with
          | some (v, cs3) => lexStr fuel (Char.ofNat v :: acc) cs3
          | none => none
        else none
    else if c.toNat < 32 then none
    else lexStr fuel (c :: acc) cs

def natOfDigits (ds : List Char) : Nat :=
  ds.foldl (fun acc c => acc * 10 + (c.toNat - 48)) 0

/-- Lex a JSON number. -/
def lexNum (l : List Char) : Option (JValue × List Char) :=
  let (neg, l1) := match l with
    | '-' :: r => (true, r)
    | _ => (false, l)
  match l1.head? with
  | none => none
  | some c =>
    if !isDigitCh c then none
    else
      let ds := l1.takeWhile isDigitCh
      let l2 := l1.dropWhile isDigitCh
      if ds.length > 1 && ds.head? == some '0' then none
      else
        let ip := natOfDigits ds
        let (fr, l3) := match l2 with
          | '.' :: r =>
            let fs := r.takeWhile isDigitCh
            (fs.map (fun c2 => c2.toNat - 48), r.dropWhile isDigitCh)
          | _ => ([], l2)
        match l2, fr with
        | '.' :: _, [] => none
        | _, _ =>
          match l3 with
          | e :: r2 =>
            if e = 'e' || e = 'E' then
              let (esign, r3) := match r2 with
                | '+' :: r4 => ((1 : Int), r4)
                | '-' :: r4 => ((-1 : Int), r4)
                | _ => ((1 : Int), r2)
              let es := r3.takeWhile isDigitCh
              if es.isEmpty then none
              else some (.jnum neg ip fr (esign * (natOfDigits es : Int)), r3.dropWhile isDigitCh)
            else some (.jnum neg ip fr 0, l3)
          | [] => some (.jnum neg ip fr 0, l3)

mutual

def parseJV : Nat → List Char → Option (JValue × List Char)
  | 0, _ => none
  | fuel + 1, l =>
    match skipJsonWs l with
    | [] => none
    | 'n' :: 'u' :: 'l' :: 'l' :: rest => some (.jnull, rest)
    | 't' :: 'r' :: 'u' :: 'e' :: rest => some (.jbool true, rest)
    | 'f' :: 'a' :: 'l' :: 's' :: 'e' :: rest => some (.jbool false, rest)
    | '"' :: rest =>
      match lexStr (rest.length + 1) [] rest with
      | some (s, rest2) => some (.jstr s, rest2)
      | none => none
    | '\x7b' :: rest => parseMembers fuel (skipJsonWs rest) []
    | '[' :: rest => parseElems fuel (skipJsonWs rest) []
    | l2 => lexNum l2

def parseMembers : Nat → List Char → List (String × JValue) → Option (JValue × List Char)
  | 0, _, _ => none
  | fuel + 1, l, acc =>
    match l with
    | '\x7d' :: rest => if acc.isEmpty then some (.jobj [], rest) else none
    | '"' :: rest =>
      match lexStr (rest.length + 1) [] rest with
      | none => none
      | some (k, rest2) =>
        match skipJsonWs rest2 with
        | ':' :: rest3 =>
          match parseJV fuel rest3 with
          | none => none
          | some (v, rest4) =>
            match skipJsonWs rest4 with
            | ',' :: rest5 => parseMembers fuel (skipJsonWs rest5) ((k, v) :: acc)
            | '\x7d' :: rest5 => some (.jobj ((k, v) :: acc).reverse, rest5)
            | _ => none
        | _ => none
    | _ => none

def parseElems : Nat → List Char → List JValue → Option (JValue × List Char)
  | 0, _, _ => none
  | fuel + 1, l, acc =>
    match l with
    | ']' :: rest => if acc.isEmpty then some (.jarr [], rest) else none
    | _ =>
      match parseJV fuel l with
      | none => none
      | some (v, rest) =>
        match skipJsonWs rest with
        | ',' :: rest2 => parseElems fuel (skipJsonWs rest2) (v :: acc)
        | ']' :: rest2 => some (.jarr (v :: acc).reverse, rest2)
        | _ => none

end

/-- `JSON.parse` (model): parse one value, then require only whitespace. -/
def jsonParse (s : String) : Option JValue :=
  match parseJV (s.data.length + 1) s.data with
  | some (v, rest) => if (skipJsonWs rest).isEmpty then some v else none
  | none => none

/-- Property access `j[k]` (last duplicate key wins, as in `JSON.parse`);
`none` is `undefined`.  Access on `null` is handled by the caller (it throws). -/
def jGet (j : JValue) (k : String) : Option JValue :=
  match j with
  | .jobj fs =>
    match fs.reverse.find? (fun kv => kv.1 == k) with
    | some kv => some kv.2
    | none => none
  | _ => none

/-- `j.k1 || j.k2 || ...`: the first truthy value, else `none` (all-falsy). -/
def jSel (j : JValue) : List String → Option JValue
  | [] => none
  | k :: ks =>
    match jGet j k with
    | some v => if jvTruthy v then some v else jSel j ks
    | none => jSel j ks

/-! ## `SmartLogParser.parseTimestamp` (src/agent/index.js lines 960-978)

`new Date(dateStr)` / `toISOString()` are modelled by a recognizer for the
date formats this program actually feeds in — strict ISO, the space-separated
`YYYY-MM-DD HH:MM:SS` (nginx after `/`→`-`), bare `YYYY-MM-DD`, and the
year-prefixed month-name syslog form — rendered back through a canonical
ISO-8601 shape (naive times are taken as UTC, i.e. a UTC host).  Strings
outside these formats are modelled as invalid dates.  No claim inspects the
rendered value; only totality matters here. -/

def clockMatch : List Char → Option (List Char) :=
  seqm (takeClass isDigitCh 2) (seqm (takeLit ':')
    (seqm (takeClass isDigitCh 2) (seqm (takeLit ':') (takeClass isDigitCh 2))))

/-- `/^\w{3}\s+\d{1,2} \d{2}:\d{2}:\d{2}$/.test(s)`. -/
def syslogTsTest (s : String) : Bool :=
  match takeClass isWordCh 3 s.data with
  | none => false
  | some l1 =>
    let l2 := l1.dropWhile isSpaceCh
    if l1.length == l2.length then false
    else
      let ds := l2.takeWhile isDigitCh
      let l3 := l2.dropWhile isDigitCh
      if !(ds.length == 1 || ds.length == 2) then false
      else
        match l3 with
        | ' ' :: l4 =>
          match clockMatch l4 with
          | some [] => true
          | _ => false
        | _ => false

structure DateC where
  y : Nat
  mo : Nat
  d : Nat
  h : Nat
  mi : Nat
  se : Nat
  ms : Nat
deriving DecidableEq, Repr

def monthNames : List String := ["jan", "feb", "mar", "apr", "may", "jun", "jul", "aug", "sep", "oct", "nov", "dec"]

/-- Parse the recognized date formats into components. -/
def jsParseDate (s : String) : Option DateC :=
  match readSeq [(4, '-'), (2, '-')] s.data with
  | some ([y, mo], l) =>
    (match readFixedNat 2 0 l with
     | some (d, l2) =>
       (match l2 with
        | [] => some { y := y, mo := mo, d := d, h := 0, mi := 0, se := 0, ms := 0 }
        | sep :: l3 =>
          if sep = 'T' || sep = ' ' then
            match readSeq [(2, ':'), (2, ':')] l3 with
            | some ([h, mi], l4) =>
              (match readFixedNat 2 0 l4 with
               | some (se, l5) =>
                 (match (match l5 with
                         | '.' :: r => readFixedNat 3 0 r
                         | _ => some (0, l5)) with
                  | some (ms, l6) =>
                    (match l6 with
                     | [] => some { y := y, mo := mo, d := d, h := h, mi := mi, se := se, ms := ms }
                     | ['Z'] => some { y := y, mo := mo, d := d, h := h, mi := mi, se := se, ms := ms }
                     | _ => none)
                  | none => none)
               | none => none)
            | _ => none
          else none)
     | none => none)
  | _ =>
    match readFixedNat 4 0 s.data with
    | some (y, l) =>
      (match l with
       | ' ' :: l1 =>
         (match takeClass isWordCh 3 l1 with
          | some l2 =>
            let name : String := ⟨lowerL (l1.take 3)⟩
            (match monthNames.findIdx? (fun m => m == name) with
             | some mi0 =>
               let l3 := l2.dropWhile isSpaceCh
               if l2.length == l3.length then none
               else
                 let ds := l3.takeWhile isDigitCh
                 let l4 := l3.dropWhile isDigitCh
                 if !(ds.length == 1 || ds.length == 2) then none
                 else
                   (match l4 with
                    | ' ' :: l5 =>
                      (match readSeq [(2, ':'), (2, ':')] l5 with
                       | some ([h, mi], l6) =>
                         (match readFixedNat 2 0 l6 with
                          | some (se, []) =>
                            some { y := y, mo := mi0 + 1, d := natOfDigits ds,
                                   h := h, mi := mi, se := se, ms := 0 }
                          | _ => none)
                       | _ => none)
                    | _ => none)
             | none => none)
          | none => none)
       | _ => none)
    | none => none

def pad2 (n : Nat) : String := if n < 10 then "0" ++ natStr n else natStr n

def pad3 (n : Nat) : String :=
  if n < 10 then "00" ++ natStr n else if n < 100 then "0" ++ natStr n else natStr n

def pad4 (n : Nat) : String :=
  if n < 10 then "000" ++ natStr n
  else if n < 100 then "00" ++ natStr n
  else if n < 1000 then "0" ++ natStr n
  else natStr n

def isoCanon (c : DateC) : String :=
  pad4 c.y ++ "-" ++ pad2 c.mo ++ "-" ++ pad2 c.d ++ "T" ++ pad2 c.h ++ ":" ++ pad2 c.mi
    ++ ":" ++ pad2 c.se ++ "." ++ pad3 c.ms ++ "Z"

/-- `new Date(ms).toISOString()` for a numeric input; rendered opaquely (no
claim inspects rendered timestamps). -/
def jsEpochIso (ms : Int) : String := "1970-01-01T00:00:00Z+" ++ toString ms ++ "ms"

/-- `SmartLogParser.parseTimestamp` on a string input.  `nowIso` stands for
`new Date().toISOString()` and `nowYear` for `new Date().getFullYear()`. -/
def parseTimestampS (ts nowIso : String) (nowYear : Nat) : String :=
  if ts == "" then nowIso
  else
    let dateStr := if syslogTsTest ts then natStr nowYear ++ " " ++ ts else ts
    match jsParseDate dateStr with
    | some d => isoCanon d
    | none => nowIso

/-- `SmartLogParser.parseTimestamp` on the selected JSON timestamp value
(`undefined`/falsy → `!timestampStr` → now; numbers and booleans are epoch
milliseconds; objects and arrays are modelled as invalid dates). -/
def parseTimestampJ (v : Option JValue) (nowIso : String) (nowYear : Nat) : String :=
  match v with
  | none => nowIso
  | some (.jstr s) => parseTimestampS s nowIso nowYear
  | some (.jnum neg ip _ _) => jsEpochIso (if neg then -(ip : Int) else (ip : Int))
  | some (.jbool b) => jsEpochIso (if b then 1 else 0)
  | some _ => nowIso

/-! ## Level normalization and keyword level detection -/

def levelMappings : List (String × String) :=
  [("E", "ERROR"), ("ERR", "ERROR"), ("FATAL", "ERROR"), ("CRITICAL", "ERROR"), ("CRIT", "ERROR"),
   ("W", "WARN"), ("WARNING", "WARN"), ("WARN", "WARN"),
   ("I", "INFO"), ("NOTICE", "INFO"), ("LOG", "INFO"),
   ("D", "DEBUG"), ("TRACE", "DEBUG"), ("VERBOSE", "DEBUG")]

/-- `SmartLogParser.normalizeLevel` (lines 891-903). -/
def normalizeLevel (level : String) : String :=
  if level == "" then "INFO"
  else
    let n := jsToUpperCase level
    match levelMappings.find? (fun kv => kv.1 == n) with
    | some kv => kv.2
    | none => n

def errorKeywords : List String :=
  ["error", "exception", "failed", "failure", "timeout", "refused", "denied", "fatal",
   "critical", "panic", "abort"]

def warnKeywords : List String := ["warning", "warn", "deprecated", "retry", "fallback", "slow"]

/-- `SmartLogParser.detectLevelFromContent` (lines 905-915). -/
def detectLevelFromContent (content : String) : String :=
  let lower := jsToLowerCase content
  if errorKeywords.any (fun k => jsIncludes lower k) then "ERROR"
  else if warnKeywords.any (fun k => jsIncludes lower k) then "WARN"
  else "INFO"

/-! ## The parser's regular expressions, as direct matchers

ECMAScript `.` excludes line terminators; `\S` is the complement of `\s`.
Greedy pieces and the backtracking the concrete patterns can actually perform
are implemented explicitly (see the comments at each matcher). -/

def isDotCh (c : Char) : Bool :=
  !(c = '\n' || c = '\r' || c.toNat = 8232 || c.toNat = 8233)

def isColonSpace (c : Char) : Bool := c = ':' || isSpaceCh c

/-- Strip a literal, case-insensitively. -/
def ciStrip : List Char → List Char → Option (List Char)
  | [], l => some l
  | _ :: _, [] => none
  | a :: as2, c :: cs => if jsLowerC a = jsLowerC c then ciStrip as2 cs else none

def levelWords : List String := ["ERROR", "WARN", "INFO", "DEBUG", "FATAL", "CRITICAL"]

/-- The alternation `(ERROR|WARN|INFO|DEBUG|FATAL|CRITICAL)` with `/i`:
no word is a prefix of another, so at most one alternative matches at a
position and first-match equals regex backtracking. -/
def matchLevelAux : List String → List Char → Option (String × List Char)
  | [], _ => none
  | w :: ws, l =>
    match ciStrip w.data l with
    | some rest => some (w, rest)
    | none => matchLevelAux ws l

/-- `(.+)` at `rest`, after having consumed the separator run `seps`
(greedy, giving back separator characters down to `minSeps` of them while
the dot class rejects the first body character). -/
def csBody (minSeps : Nat) (seps rest : List Char) : Option (List Char) :=
  match rest with
  | c :: _ =>
    if isDotCh c then some (rest.takeWhile isDotCh)
    else if seps.length > minSeps then
      match seps.getLast? with
      | some s => csBody minSeps seps.dropLast (s :: rest)
      | none => none
    else none
  | [] =>
    if seps.length > minSeps then
      match seps.getLast? with
      | some s => csBody minSeps seps.dropLast (s :: rest)
      | none => none
    else none
termination_by seps.length
decreasing_by
  · rename_i hs
    have : seps.dropLast.length = seps.length - 1 := by
      simp [List.length_dropLast]
    omega
  · rename_i hs
    have : seps.dropLast.length = seps.length - 1 := by
      simp [List.length_dropLast]
    omega

/-- `[:\s]+(.+)`. -/
def csPlusBody (l : List Char) : Option (List Char) :=
  let seps := l.takeWhile isColonSpace
  if seps.isEmpty then none else csBody 1 seps (l.dropWhile isColonSpace)

/-- `[:\s]*(.+)`. -/
def csStarBody (l : List Char) : Option (List Char) :=
  csBody 0 (l.takeWhile isColonSpace) (l.dropWhile isColonSpace)

/-- `^\[([^\]]+)\]\s*(LEVEL)[:\s]+(.+)/i` → (ts, level word, body). -/
def matchG1 (l : List Char) : Option (List Char × String × List Char) :=
  match l with
  | '[' :: r =>
    let ts := r.takeWhile (fun c => c ≠ ']')
    if ts.isEmpty then none
    else
      match r.dropWhile (fun c => c ≠ ']') with
      | ']' :: r3 =>
        (match matchLevelAux levelWords (r3.dropWhile isSpaceCh) with
         | some (w, r5) =>
           (match csPlusBody r5 with
            | some body => some (ts, w, body)
            | none => none)
         | none => none)
      | _ => none
  | _ => none

/-- `^(\d{4}-\d{2}-\d{2}[T\s]\d{2}:\d{2}:\d{2}(?:\.\d{3})?[Z]?)\s+(LEVEL)[:\s]*(.+)/i`
→ (ts, level word, body).  The pieces following the greedy optional groups
(`\s`, a level letter) are disjoint from what those groups consume, so
greedy-without-backtracking is exact. -/
def matchG2 (l : List Char) : Option (List Char × String × List Char) :=
  match tsMatch true l with
  | some rest =>
    let ts := l.take (l.length - rest.length)
    (match rest with
     | c :: _ =>
       if isSpaceCh c then
         (match matchLevelAux levelWords (rest.dropWhile isSpaceCh) with
          | some (w, r3) =>
            (match csStarBody r3 with
             | some body => some (ts, w, body)
             | none => none)
          | none => none)
       else none
     | [] => none)
  | none => none

/-- `^(LEVEL)[:\s]+(.+)/i` → (level word, body). -/
def matchG3 (l : List Char) : Option (String × List Char) :=
  match matchLevelAux levelWords l with
  | some (w, r) =>
    (match csPlusBody r with
     | some body => some (w, body)
     | none => none)
  | none => none

/-- `(.+)` with no separator slack: at least one dot character. -/
def dotBody (l : List Char) : Option (List Char) :=
  match l with
  | c :: _ => if isDotCh c then some (l.takeWhile isDotCh) else none
  | [] => none

def digitRun1 (l : List Char) : Option (List Char) :=
  let ds := l.takeWhile isDigitCh
  if ds.isEmpty then none else some (l.dropWhile isDigitCh)

/-- `^(\d{4}\/\d{2}\/\d{2} \d{2}:\d{2}:\d{2}) \[(\w+)\] \d+#\d+: (?:\*\d+ )?(.+)`
→ (ts, level, body). -/
def matchNginx (l : List Char) : Option (List Char × List Char × List Char) :=
  match seqm (takeClass isDigitCh 4) (seqm (takeLit '/')
      (seqm (takeClass isDigitCh 2) (seqm (takeLit '/')
        (seqm (takeClass isDigitCh 2) (seqm (takeLit ' ') clockMatch))))) l with
  | none => none
  | some r1 =>
    let ts := l.take (l.length - r1.length)
    (match r1 with
     | ' ' :: '[' :: r2 =>
       let w := r2.takeWhile isWordCh
       if w.isEmpty then none
       else
         (match r2.dropWhile isWordCh with
          | ']' :: ' ' :: r3 =>
            (match digitRun1 r3 with
             | some r4 =>
               (match r4 with
                | '#' :: r5 =>
                  (match digitRun1 r5 with
                   | some r6 =>
                     (match r6 with
                      | ':' :: ' ' :: r7 =>
                        -- optional `\*\d+ ` then `(.+)`; backtrack the optional
                        -- if the body cannot start
                        (match (match r7 with
                                | '*' :: r8 =>
                                  (match digitRun1 r8 with
                                   | some (' ' :: r9) => some r9
                                   | _ => none)
                                | _ => none) with
                         | some r9 =>
                           (match dotBody r9 with
                            | some body => some (ts, w, body)
                            | none =>
                              match dotBody r7 with
                              | some body => some (ts, w, body)
                              | none => none)
                         | none =>
                           match dotBody r7 with
                           | some body => some (ts, w, body)
                           | none => none)
                      | _ => none)
                   | none => none)
                | _ => none)
             | none => none)
          | _ => none)
     | _ => none)

/-- `\[pid \d+\] ` (apache optional group). -/
def stripPid (l : List Char) : Option (List Char) :=
  match l with
  | '[' :: 'p' :: 'i' :: 'd' :: ' ' :: r =>
    (match digitRun1 r with
     | some (']' :: ' ' :: r2) => some r2
     | _ => none)
  | _ => none

/-- `\[client [^\]]+\] ` (apache optional group). -/
def stripClient (l : List Char) : Option (List Char) :=
  match l with
  | '[' :: 'c' :: 'l' :: 'i' :: 'e' :: 'n' :: 't' :: ' ' :: r =>
    let inner := r.takeWhile (fun c => c ≠ ']')
    if inner.isEmpty then none
    else
      (match r.dropWhile (fun c => c ≠ ']') with
       | ']' :: ' ' :: r2 => some r2
       | _ => none)
  | _ => none

/-- The two greedy optionals of the apache pattern with their backtracking
order: (pid, client), (pid, –), (–, client), (–, –). -/
def apacheBody (l : List Char) : Option (List Char) :=
  let noPid : Option (List Char) :=
    match stripClient l with
    | some l2 =>
      (match dotBody l2 with
       | some b => some b
       | none => dotBody l)
    | none => dotBody l
  match stripPid l with
  | some l2 =>
    (match stripClient l2 with
     | some l3 =>
       (match dotBody l3 with
        | some b => some b
        | none =>
          match dotBody l2 with
          | some b => some b
          | none => noPid)
     | none =>
       match dotBody l2 with
       | some b => some b
       | none => noPid)
  | none => noPid

/-- `^\[([^\]]+)\] \[(\w+)\] (?:\[pid \d+\] )?(?:\[client [^\]]+\] )?(.+)`
→ (ts, level, body). -/
def matchApache (l : List Char) : Option (List Char × List Char × List Char) :=
  match l with
  | '[' :: r =>
    let ts := r.takeWhile (fun c => c ≠ ']')
    if ts.isEmpty then none
    else
      (match r.dropWhile (fun c => c ≠ ']') with
       | ']' :: ' ' :: '[' :: r2 =>
         let w := r2.takeWhile isWordCh
         if w.isEmpty then none
         else
           (match r2.dropWhile isWordCh with
            | ']' :: ' ' :: r3 =>
              (match apacheBody r3 with
               | some body => some (ts, w, body)
               | none => none)
            | _ => none)
       | _ => none)
  | _ => none

/-- `^(\w{3}\s+\d{1,2} \d{2}:\d{2}:\d{2}) (\S+) ([^:\[]+)(?:\[\d+\])?: (.+)`
→ (ts, hostname, service, body).  The greedy pieces here allow no useful
give-back (see the class structure: a shorter `[^:\[]+` run still faces a
non-`:`／non-`[` character). -/
def matchSyslog (l : List Char) : Option (List Char × List Char × List Char × List Char) :=
  match takeClass isWordCh 3 l with
  | none => none
  | some l1 =>
    (match l1 with
     | c :: _ =>
       if !isSpaceCh c then none
       else
         let l2 := l1.dropWhile isSpaceCh
         let ds := l2.takeWhile isDigitCh
         if !(ds.length == 1 || ds.length == 2) then none
         else
           (match l2.dropWhile isDigitCh with
            | ' ' :: l3 =>
              (match clockMatch l3 with
               | none => none
               | some l4 =>
                 let ts := l.take (l.length - l4.length)
                 (match l4 with
                  | ' ' :: l5 =>
                    let host := l5.takeWhile (fun c2 => !isSpaceCh c2)
                    if host.isEmpty then none
                    else
                      (match l5.dropWhile (fun c2 => !isSpaceCh c2) with
                       | ' ' :: l6 =>
                         let svc := l6.takeWhile (fun c2 => !(c2 = ':' || c2 = '['))
                         if svc.isEmpty then none
                         else
                           let l7 := l6.dropWhile (fun c2 => !(c2 = ':' || c2 = '['))
                           let l8 := match l7 with
                             | '[' :: r =>
                               (match digitRun1 r with
                                | some (']' :: r2) => r2
                                | _ => l7)
                             | _ => l7
                           (match l8 with
                            | ':' :: ' ' :: l9 =>
                              (match dotBody l9 with
                               | some body => some (ts, host, svc, body)
                               | none => none)
                            | _ => none)
                       | _ => none)
                  | _ => none))
            | _ => none)
     | [] => none)

/-- `/^\w{3}\s+\d{1,2} \d{2}:\d{2}:\d{2} \S+ \S+/.test(line)`. -/
def isSyslogFormatB (l : List Char) : Bool :=
  match takeClass isWordCh 3 l with
  | none => false
  | some l1 =>
    (match l1 with
     | c :: _ =>
       if !isSpaceCh c then false
       else
         let l2 := l1.dropWhile isSpaceCh
         let ds := l2.takeWhile isDigitCh
         if !(ds.length == 1 || ds.length == 2) then false
         else
           (match l2.dropWhile isDigitCh with
            | ' ' :: l3 =>
              (match clockMatch l3 with
               | none => false
               | some (' ' :: l5) =>
                 let host := l5.takeWhile (fun c2 => !isSpaceCh c2)
                 if host.isEmpty then false
                 else
                   (match l5.dropWhile (fun c2 => !isSpaceCh c2) with
                    | ' ' :: l6 => !(l6.takeWhile (fun c2 => !isSpaceCh c2)).isEmpty
                    | _ => false)
               | some _ => false)
            | _ => false)
     | [] => false)

/-! ## `SmartLogParser` events and per-format extraction

`RawEvent` is the object a per-format routine returns before `parse` attaches
`semantics` and `urgency`; its `messageJ` is a JSON value because
`parseJSON` may select a non-string `message` (a number, boolean, object or
array), which then makes `extractSemantics(result.message)` throw. -/

inductive LogType where
  | nginx : LogType
  | apache : LogType
  | json : LogType
  | syslog : LogType
  | auto : LogType
deriving DecidableEq, Repr

structure LogFileSpec where
  path : String
  ftype : LogType
deriving DecidableEq, Repr

structure RawEvent where
  timestamp : String
  level : String
  messageJ : JValue
  originalLine : String
  parser : String
  metaService : Option JValue := none
  metaVersion : Option JValue := none
  metaTraceId : Option JValue := none
  metaUserId : Option JValue := none
  metaHostname : Option JValue := none
deriving Repr

/-- `SmartLogParser.parseGeneric` (lines 775-806). -/
def parseGenericRaw (line : String) (nowIso : String) (nowYear : Nat) : RawEvent :=
  match matchG1 line.data with
  | some (ts, w, body) =>
    { timestamp := parseTimestampS ⟨ts⟩ nowIso nowYear, level := normalizeLevel w,
      messageJ := .jstr (jsTrim ⟨body⟩), originalLine := line, parser := "generic" }
  | none =>
  match matchG2 line.data with
  | some (ts, w, body) =>
    { timestamp := parseTimestampS ⟨ts⟩ nowIso nowYear, level := normalizeLevel w,
      messageJ := .jstr (jsTrim ⟨body⟩), originalLine := line, parser := "generic" }
  | none =>
  match matchG3 line.data with
  | some (w, body) =>
    { timestamp := nowIso, level := normalizeLevel w,
      messageJ := .jstr (jsTrim ⟨body⟩), originalLine := line, parser := "generic" }
  | none =>
    { timestamp := nowIso, level := detectLevelFromContent line,
      messageJ := .jstr (jsTrim line), originalLine := line, parser := "fallback" }

/-- `SmartLogParser.parseJSON` (lines 808-827).  The `try` block covers the
`JSON.parse` call and the construction of the returned object; a throw inside
it (invalid JSON, property access on `null`, `toUpperCase` on a truthy
non-string level) delegates to `parseGeneric`.  A truthy non-string *message*
does not throw here — it is returned as-is. -/
def parseJSONRaw (line : String) (nowIso : String) (nowYear : Nat) : RawEvent :=
  match jsonParse line with
  | none => parseGenericRaw line nowIso nowYear
  | some j =>
    if j.isNullB then parseGenericRaw line nowIso nowYear
    else
      match (match jSel j ["level", "severity"] with
             | none => some ("INFO")
             | some (.jstr s) => some s
             | some _ => none) with
      | none => parseGenericRaw line nowIso nowYear
      | some lvs =>
        let msg := match jSel j ["message", "msg", "text"] with
          | some v => v
          | none => .jstr line
        { timestamp := parseTimestampJ (jSel j ["timestamp", "time", "@timestamp"]) nowIso nowYear,
          level := normalizeLevel lvs,
          messageJ := msg, originalLine := line, parser := "json",
          metaService := jGet j ("service"), metaVersion := jGet j ("version"),
          metaTraceId := jGet j ("trace_id"), metaUserId := jGet j ("user_id") }

def mapSlashDash (s : String) : String :=
  ⟨s.data.map (fun c => if c = '/' then '-' else c)⟩

/-- `SmartLogParser.parseNginx` (lines 829-845). -/
def parseNginxRaw (line : String) (nowIso : String) (nowYear : Nat) : RawEvent :=
  match matchNginx line.data with
  | some (ts, w, body) =>
    { timestamp := parseTimestampS (mapSlashDash ⟨ts⟩) nowIso nowYear,
      level := normalizeLevel ⟨w⟩,
      messageJ := .jstr ⟨body⟩, originalLine := line, parser := "nginx" }
  | none => parseGenericRaw line nowIso nowYear

/-- `SmartLogParser.parseApache` (lines 847-863). -/
def parseApacheRaw (line : String) (nowIso : String) (nowYear : Nat) : RawEvent :=
  match matchApache line.data with
  | some (ts, w, body) =>
    { timestamp := parseTimestampS ⟨ts⟩ nowIso nowYear, level := normalizeLevel ⟨w⟩,
      messageJ := .jstr ⟨body⟩, originalLine := line, parser := "apache" }
  | none => parseGenericRaw line nowIso nowYear

/-- `SmartLogParser.parseSyslog` (lines 865-885). -/
def parseSyslogRaw (line : String) (nowIso : String) (nowYear : Nat) : RawEvent :=
  match matchSyslog line.data with
  | some (ts, host, svc, body) =>
    { timestamp := parseTimestampS ⟨ts⟩ nowIso nowYear,
      level := detectLevelFromContent ⟨body⟩,
      messageJ := .jstr ⟨body⟩, originalLine := line, parser := "syslog",
      metaHostname := some (.jstr ⟨host⟩), metaService := some (.jstr ⟨svc⟩) }
  | none => parseGenericRaw line nowIso nowYear

/-- `SmartLogParser.parseAuto` (lines 765-773). -/
def parseAutoRaw (line : String) (nowIso : String) (nowYear : Nat) : RawEvent :=
  if jsStartsWith (jsTrim line) ("\x7b") then parseJSONRaw line nowIso nowYear
  else if jsIncludes line ("nginx") then parseNginxRaw line nowIso nowYear
  else if jsIncludes line ("apache") then parseApacheRaw line nowIso nowYear
  else if isSyslogFormatB line.data then parseSyslogRaw line nowIso nowYear
  else parseGenericRaw line nowIso nowYear

/-- The dispatch `this.parsers[logFile.type] || this.parsers.auto` (line 755). -/
def parseRaw (line : String) (lf : LogFileSpec) (nowIso : String) (nowYear : Nat) : RawEvent :=
  match lf.ftype with
  | .nginx => parseNginxRaw line nowIso nowYear
  | .apache => parseApacheRaw line nowIso nowYear
  | .json => parseJSONRaw line nowIso nowYear
  | .syslog => parseSyslogRaw line nowIso nowYear
  | .auto => parseAutoRaw line nowIso nowYear

/-! ## `extractSemantics` and `calculateUrgency` -/

/-- One ip-address candidate `\d{1,3}(\.\d{1,3}){3}\b` starting here (the
octet runs are maximal, since a longer digit run refutes every `{1,3}`
split followed by `.` or `\b`). -/
def ipAt (l : List Char) : Bool :=
  let o := fun (l2 : List Char) =>
    let ds := l2.takeWhile isDigitCh
    if ds.isEmpty || ds.length > 3 then none else some (l2.dropWhile isDigitCh)
  match o l with
  | none => false
  | some l1 =>
    match l1 with
    | '.' :: l2 =>
      (match o l2 with
       | none => false
       | some l3 =>
         match l3 with
         | '.' :: l4 =>
           (match o l4 with
            | none => false
            | some l5 =>
              match l5 with
              | '.' :: l6 =>
                (match o l6 with
                 | none => false
                 | some l7 => l7.head?.all (fun c => !isWordCh c))
              | _ => false)
         | _ => false)
    | _ => false

/-- `/\b\d{1,3}\.\d{1,3}\.\d{1,3}\.\d{1,3}\b/.test`, scanning with the
word-context needed by the leading `\b`. -/
def ipScan (pw : Bool) : List Char → Bool
  | [] => false
  | c :: cs => (!pw && isDigitCh c && ipAt (c :: cs)) || ipScan (isWordCh c) cs

/-- `/https?:\/\/[^\s]+/` at this position (case-sensitive). -/
def urlAt (l : List Char) : Bool :=
  match l with
  | 'h' :: 't' :: 't' :: 'p' :: r =>
    (match (match r with
            | 's' :: r2 => r2
            | _ => r) with
     | ':' :: '/' :: '/' :: c :: _ => !isSpaceCh c
     | _ => false)
  | _ => false

/-- `\b[4-5]\d{2}\b` at this position. -/
def scAt (l : List Char) : Bool :=
  match l with
  | c :: r =>
    (c = '4' || c = '5') &&
      (match takeClass isDigitCh 2 r with
       | some r2 => r2.head?.all (fun c2 => !isWordCh c2)
       | none => false)
  | [] => false

def scScan (pw : Bool) : List Char → Bool
  | [] => false
  | c :: cs => (!pw && scAt (c :: cs)) || scScan (isWordCh c) cs

/-- `/\d{4}-\d{2}-\d{2}/` at this position. -/
def dateAt (l : List Char) : Bool :=
  (seqm (takeClass isDigitCh 4) (seqm (takeLit '-')
    (seqm (takeClass isDigitCh 2) (seqm (takeLit '-') (takeClass isDigitCh 2)))) l).isSome

def scanAny (f : List Char → Bool) : List Char → Bool
  | [] => false
  | c :: cs => f (c :: cs) || scanAny f cs

/-- `SmartLogParser.extractSemantics` (lines 917-932). -/
def extractSemantics (message : String) : Semantics :=
  let lower := jsToLowerCase message
  { hasIpAddress := ipScan false message.data,
    hasUrl := scanAny urlAt message.data,
    hasStatusCode := scScan false message.data,
    hasTimestamp := scanAny dateAt message.data,
    hasDatabase := ["database", "db", "sql", "query", "table", "connection"].any
      (fun k => jsIncludes lower k),
    hasNetwork := ["network", "socket", "connection", "host", "port"].any
      (fun k => jsIncludes lower k),
    hasAuth := ["auth", "login", "password", "token", "permission"].any
      (fun k => jsIncludes lower k),
    hasMemory := ["memory", "heap", "oom", "malloc"].any (fun k => jsIncludes lower k),
    hasSecurity := ["security", "attack", "breach", "suspicious"].any
      (fun k => jsIncludes lower k) }

/-- `SmartLogParser.calculateUrgency` (lines 934-958). -/
def calculateUrgency (level : String) (message : String) (sem : Semantics) : Nat :=
  let base := if level == "ERROR" then 8 else if level == "WARN" then 4
    else if level == "INFO" then 1 else 0
  let s1 := base + (if sem.hasDatabase then 2 else 0) + (if sem.hasNetwork then 1 else 0)
    + (if sem.hasAuth then 3 else 0) + (if sem.hasSecurity then 5 else 0)
    + (if sem.hasMemory then 2 else 0) + (if sem.hasStatusCode then 1 else 0)
  let lower := jsToLowerCase message
  let s2 := s1 + (if jsIncludes lower ("critical") || jsIncludes lower ("fatal") then 3 else 0)
    + (if jsIncludes lower ("timeout") then 2 else 0)
    + (if jsIncludes lower ("failed") || jsIncludes lower ("failure") then 2 else 0)
  min 10 s2

structure ParsedEvent where
  timestamp : String
  level : String
  message : String
  originalLine : String
  parser : String
  semantics : Semantics
  urgency : Nat
  metaService : Option JValue := none
  metaVersion : Option JValue := none
  metaTraceId : Option JValue := none
  metaUserId : Option JValue := none
  metaHostname : Option JValue := none
deriving Repr

/-- `SmartLogParser.parse` (lines 754-763).  After the per-format routine,
`extractSemantics(result.message)` calls `message.toLowerCase()`: if the JSON
path selected a truthy non-string `message`, this throws a `TypeError` out of
`parse` — modelled by `Except.error ()`. -/
def parseE (line : String) (lf : LogFileSpec) (nowIso : String) (nowYear : Nat) :
    Except Unit ParsedEvent :=
  let r := parseRaw line lf nowIso nowYear
  match r.messageJ with
  | .jstr m =>
    let sem := extractSemantics m
    .ok { timestamp := r.timestamp, level := r.level, message := m,
          originalLine := r.originalLine, parser := r.parser, semantics := sem,
          urgency := calculateUrgency r.level m sem,
          metaService := r.metaService, metaVersion := r.metaVersion,
          metaTraceId := r.metaTraceId, metaUserId := r.metaUserId,
          metaHostname := r.metaHostname }
  | _ => .error ()

/-! ## The exact condition under which `parse` throws -/

/-- The selected level would not make `normalizeLevel` throw inside the
`parseJSON` try block (absent/falsy defaults to `'INFO'`, a string works,
anything else throws there and falls back to `parseGeneric`). -/
def jsonLevelOkB (j : JValue) : Bool :=
  match jSel j ["level", "severity"] with
  | none => true
  | some (.jstr _) => true
  | some _ => false

/-- The selected message is a truthy non-string. -/
def jsonMsgNonStrB (j : JValue) : Bool :=
  match jSel j ["message", "msg", "text"] with
  | some (.jstr _) => false
  | some _ => true
  | none => false

/-- `parse` throws on this line when routed through the JSON path. -/
def jsonThrowsB (line : String) : Bool :=
  match jsonParse line with
  | some j => !j.isNullB && (jsonLevelOkB j && jsonMsgNonStrB j)
  | none => false

/-- The line is routed to `parseJSON`. -/
def jsonPathB (line : String) (lf : LogFileSpec) : Bool :=
  lf.ftype == .json || (lf.ftype == .auto && jsStartsWith (jsTrim line) ("\x7b"))

/-! ## `MemoryStore.search` (src/server/index.js lines 199-242)

Stored records are built by `addError` from the agent's `error.data` payload
and never carry a `server` property, so `e.server` is `undefined`; the two
filters that evaluate `e.server.toLowerCase()` throw a `TypeError` when their
short-circuit reaches it — modelled by `Except.error ()`. -/

/-- `/server[- ]?(\w+)/` at this position → the captured `\w+`. -/
def serverCueAt (l : List Char) : Option (List Char) :=
  match l with
  | 's' :: 'e' :: 'r' :: 'v' :: 'e' :: 'r' :: r =>
    (match r with
     | c :: cs =>
       if isWordCh c then some (r.takeWhile isWordCh)
       else if c = '-' || c = ' ' then
         match cs with
         | c2 :: _ => if isWordCh c2 then some (cs.takeWhile isWordCh) else none
         | [] => none
       else none
     | [] => none)
  | _ => none

/-- `q.match(/server[- ]?(\w+)/)`: leftmost match's capture. -/
def serverCueScan : List Char → Option (List Char)
  | [] => none
  | c :: cs =>
    match serverCueAt (c :: cs) with
    | some w => some w
    | none => serverCueScan cs

/-- The filter chain built from the cue tokens, in source order. -/
def searchFilters (q : String) : List (StoredError → Except Unit Bool) :=
  (if jsIncludes q ("critical") || jsIncludes q ("urgent") then
    [fun (e : StoredError) => (.ok (e.severity == "critical") : Except Unit Bool)] else []) ++
  (if jsIncludes q ("database") || jsIncludes q ("db") then
    [fun (e : StoredError) =>
      (.ok (e.category == "Database Connectivity") : Except Unit Bool)] else []) ++
  (if jsIncludes q ("timeout") then
    [fun (e : StoredError) =>
      (.ok (jsIncludes (jsToLowerCase e.errorMessage) ("timeout")) : Except Unit Bool)] else []) ++
  (if jsIncludes q ("new") || jsIncludes q ("recent") then
    [fun (e : StoredError) =>
      (.ok (e.trend == "new" || e.trend == "increasing") : Except Unit Bool)] else []) ++
  (if jsIncludes q ("server") then
    match serverCueScan q.data with
    | some w =>
      [fun (e : StoredError) =>
        (if jsIncludes e.serverId ⟨w⟩ then .ok true else .error () : Except Unit Bool)]
    | none => []
   else [])

def exceptFilter (p : StoredError → Except Unit Bool) :
    List StoredError → Except Unit (List StoredError)
  | [] => .ok []
  | x :: xs =>
    match p x with
    | .error u => .error u
    | .ok b =>
      match exceptFilter p xs with
      | .error u => .error u
      | .ok rest => .ok (if b then x :: rest else rest)

def applyFilters :
    List (StoredError → Except Unit Bool) → List StoredError → Except Unit (List StoredError)
  | [], es => .ok es
  | f :: fs, es =>
    match exceptFilter f es with
    | .error u => .error u
    | .ok es2 => applyFilters fs es2

/-- The fallback text filter: `e.errorMessage.toLowerCase().includes(q) ||
e.server.toLowerCase().includes(q) || ...` — the second disjunct throws. -/
def fallbackFilter (q : String) (e : StoredError) : Except Unit Bool :=
  if jsIncludes (jsToLowerCase e.errorMessage) q then .ok true
  else .error ()

/-- `MemoryStore.search`. -/
def searchStore (st : MemoryStore) (query : String) : Except Unit (List StoredError) :=
  if query == "" then .ok (st.errors.take 50)
  else
    let q := jsToLowerCase query
    let fs := searchFilters q
    match applyFilters fs st.errors with
    | .error u => .error u
    | .ok results =>
      if results.length == st.errors.length && fs.isEmpty then
        match exceptFilter (fallbackFilter q) st.errors with
        | .error u => .error u
        | .ok r2 => .ok (r2.take 100)
      else .ok (results.take 100)

/-! ## `FileTailer` (src/agent/index.js lines 982-1062)

The tailed file is a char list; a `watchFile` event carries the previous and
current stat sizes.  `readNewLines` re-stats the file, reads
`[position, size)`, splits on newlines, drops blank fragments, delivers the
lines, and advances the cursor — but only when `size > position`; there is no
cursor reset of any kind. -/

/-- `content.split('\n')`. -/
def splitNl : List Char → List (List Char)
  | [] => [[]]
  | c :: cs =>
    if c = '\n' then [] :: splitNl cs
    else
      match splitNl cs with
      | ln :: rest => (c :: ln) :: rest
      | [] => [[c]]

/-- `FileTailer.readNewLines` (lines 1021-1044): returns the new cursor and
the lines delivered to the callback. -/
def readNewLinesF (content : List Char) (pos : Nat) : Nat × List (List Char) :=
  let size := content.length
  if size ≤ pos then (pos, [])
  else
    (size, (splitNl (content.drop pos)).filter (fun ln => !(trimL ln).isEmpty))

/-- One `fs.watchFile` tick as handled by `FileTailer.watch` (lines 1006-1019):
`readNewLines` runs only when the current size grew past the previous stat. -/
def pollTick (prevSize : Nat) (content : List Char) (pos : Nat) : Nat × List (List Char) :=
  if content.length > prevSize then readNewLinesF content pos else (pos, [])

/-! ## `LogScopeAgent` reconnection (src/agent/index.js lines 1134-1180) -/

/-- `LogScopeAgent.scheduleReconnect`: `none` when the attempt cap stops the
reconnect, otherwise the incremented attempt counter and the delay
`min(reconnectDelay * 2^(attempts-1), 60000)` of the scheduled attempt. -/
def scheduleReconnect (maxAttempts : Int) (reconnectDelay : Nat) (attempts : Nat) :
    Option (Nat × Nat) :=
  if 0 < maxAttempts ∧ (attempts : Int) ≥ maxAttempts then none
  else some (attempts + 1, min (reconnectDelay * 2 ^ attempts) 60000)

/-- Attempt counter and delay after the `n`-th consecutive connection close
since the last successful open (which resets the counter to 0). -/
def reconnectSeq (maxA : Int) (base : Nat) : Nat → Option (Nat × Nat)
  | 0 => some (0, 0)
  | n + 1 =>
    match reconnectSeq maxA base n with
    | none => none
    | some (a, _) => scheduleReconnect maxA base a

structure AgentConnState where
  running : Bool
  reconnectAttempts : Nat
deriving DecidableEq, Repr

/-- The `'open'` handler (lines 1139-1144): `this.reconnectAttempts = 0`. -/
def onSocketOpen (st : AgentConnState) : AgentConnState :=
  { st with reconnectAttempts := 0 }

/-! ## Agent registry and `GET /api/servers` (src/server/index.js)

`registerAgent` (lines 657-672) spreads the register payload and adds
`status/errorCount/successCount/warningCount/registeredAt` and the live
transport handle `ws`; `handleAPI` (lines 292-296) serializes
`Array.from(this.agents.values())` as-is. -/

structure PlatformInfo where
  hostname : String
  platform : String
  arch : String
  nodeVersion : String
  memory : String
deriving DecidableEq, Repr

/-- The `register.data` payload. -/
structure RegisterData where
  serverId : String
  serverName : String
  logFiles : List String
  timestamp : String
  version : String
  platform : PlatformInfo
deriving DecidableEq, Repr

/-- A value in the `agents` map.  `ws` holds the transport handle (modelled
by a numeric socket id). -/
structure AgentRecord where
  serverId : String
  serverName : String
  logFiles : List String
  timestamp : String
  version : String
  platform : PlatformInfo
  status : String
  errorCount : Nat
  successCount : Nat
  warningCount : Nat
  registeredAt : String
  lastSeen : Option String
  ws : Option Nat
deriving DecidableEq, Repr

def agentOfRegister (d : RegisterData) (t : Nat) (nowIso : String) : AgentRecord :=
  { serverId := d.serverId, serverName := d.serverName, logFiles := d.logFiles,
    timestamp := d.timestamp, version := d.version, platform := d.platform,
    status := "online", errorCount := 0, successCount := 0, warningCount := 0,
    registeredAt := nowIso, lastSeen := none, ws := some t }

/-- `Map.prototype.set` over the insertion-ordered agent map. -/
def agentsSet (k : String) (v : AgentRecord) :
    List (String × AgentRecord) → List (String × AgentRecord)
  | [] => [(k, v)]
  | (k2, v2) :: rest => if k2 = k then (k2, v) :: rest else (k2, v2) :: agentsSet k v rest

/-- `LogScopeServer.registerAgent`. -/
def registerAgent (agents : List (String × AgentRecord)) (d : RegisterData) (t : Nat)
    (nowIso : String) : List (String × AgentRecord) :=
  agentsSet d.serverId (agentOfRegister d t nowIso) agents

/-- The `/api/servers` branch of `handleAPI`: HTTP status and the record
array handed to `JSON.stringify`. -/
def apiServers (agents : List (String × AgentRecord)) : Nat × List AgentRecord :=
  (200, agents.map (fun kv => kv.2))

/-- The own enumerable property names `JSON.stringify` serializes for an
agent record — the `ws` transport handle included whenever the record holds
one.  (On a live `ws` socket the serialization can in fact throw on the
socket's circular structure, turning the response into a 500; either way the
handle is not omitted.) -/
def serializeAgentFields (a : AgentRecord) : List String :=
  ["serverId", "serverName", "logFiles", "timestamp", "version", "platform",
   "status", "errorCount", "successCount", "warningCount", "registeredAt"] ++
  (match a.lastSeen with
   | some _ => ["lastSeen"]
   | none => []) ++
  (match a.ws with
   | some _ => ["ws"]
   | none => [])

/-! ## Concrete fixtures used by counterexamples and witnesses -/

/-- The dedup key of a stored record. -/
def fingerprint (r : StoredError) : String × String × String :=
  (r.serverId, r.logFile, normalizeMessage r.errorMessage)

def semNone : Semantics :=
  { hasIpAddress := false, hasUrl := false, hasStatusCode := false, hasTimestamp := false,
    hasDatabase := false, hasNetwork := false, hasAuth := false, hasMemory := false,
    hasSecurity := false }

def t0iso : String := "2000-01-01T00:00:00.000Z"

def t0ms : Int := (jsDateMs t0iso).getD 0

/-- Twelve distinct-fingerprint `Database Connectivity` errors from one
server (distinct log files, same message), all stamped `t0iso`. -/
def c1call (i : Nat) : AddCall :=
  { e := { serverId := "A", serverName := "a", logFile := "f" ++ natStr i,
           errorMessage := "db", lineNumber := 0, timestamp := some t0iso,
           parser := "g", urgency := 9, semantics := semNone },
    nowMs := t0ms, nowIso := t0iso, freshId := "i" ++ natStr i }

def c1st12 : MemoryStore := runAdds emptyStore ((List.range 12).map c1call)

/-- Ten hours after `t0iso`. -/
def c1now2 : Int := t0ms + 36000000

/-- A duplicate of the first record (same fingerprint), still carrying the
old timestamp, arriving ten hours later. -/
def c1dup : IncomingError :=
  { serverId := "A", serverName := "a", logFile := "f0",
    errorMessage := "db", lineNumber := 0, timestamp := some t0iso,
    parser := "g", urgency := 9, semantics := semNone }

def c1st13 : MemoryStore := (addError c1st12 c1dup c1now2 ("x") ("i12")).1

/-- A store holding one error whose `serverName` is `"alpha"` but whose
message does not contain `"alpha"`. -/
def c7incoming : IncomingError :=
  { serverId := "srv1", serverName := "alpha", logFile := "f",
    errorMessage := "boom", lineNumber := 3, timestamp := some t0iso,
    parser := "g", urgency := 9, semantics := semNone }

def c7store : MemoryStore := (addError emptyStore c7incoming t0ms t0iso ("i0")).1

def c8register : RegisterData :=
  { serverId := "srv1", serverName := "alpha", logFiles := ["/var/log/syslog"],
    timestamp := t0iso, version := "2.0.0-ultra",
    platform := { hostname := "h", platform := "linux", arch := "x64",
                  nodeVersion := "v18", memory := "25MB" } }

def c8agents : List (String × AgentRecord) := registerAgent [] c8register 7 t0iso

def c10incoming : IncomingError :=
  { serverId := "B", serverName := "b", logFile := "g",
    errorMessage := "disk is full", lineNumber := 5, timestamp := some t0iso,
    parser := "g", urgency := 8, semantics := semNone }

def c10store : MemoryStore := (addError emptyStore c10incoming t0ms t0iso ("j0")).1

def c10stored : StoredError := (addError emptyStore c10incoming t0ms t0iso ("j0")).2

def lfJson : LogFileSpec := { path := "app.json.log", ftype := .json }

/-! ## Helper lemmas

Each piece matcher consumes at least the stated number of characters, so the
scan fuel `input length + 1` used by the global-replace scanners and the JSON
parser is never exhausted. -/

theorem takeClass_consumes (p : Char → Bool) (n : Nat) : Consumes (takeClass p n) n := by
  induction n with
  | zero => intro l r h; simp [takeClass] at h; simp [h]
  | succ n ih =>
    intro l r h
    match l with
    | [] => simp [takeClass] at h
    | c :: cs =>
      simp only [takeClass] at h
      split at h
      · have := ih cs r h; simp; omega
      · exact absurd h (by simp)

theorem takeLit_consumes (ch : Char) : Consumes (takeLit ch) 1 := by
  intro l r h
  match l with
  | [] => simp [takeLit] at h
  | c :: cs =>
    simp only [takeLit] at h
    split at h
    · cases h; simp
    · exact absurd h (by simp)

theorem seqm_consumes {f g m n} (hf : Consumes f m) (hg : Consumes g n) :
    Consumes (seqm f g) (m + n) := by
  intro l r h
  simp only [seqm] at h
  split at h
  · rename_i l2 h2
    have := hf l l2 h2
    have := hg l2 r h
    omega
  · exact absurd h (by simp)

theorem optm_consumes {f k} (hf : Consumes f k) : Consumes (optm f) 0 := by
  intro l r h
  simp only [optm] at h
  split at h
  · rename_i l2 h2
    cases h
    have := hf l r h2
    omega
  · cases h; omega

theorem tsMatch_consumes (ci : Bool) : Consumes (tsMatch ci) 19 := by
  unfold tsMatch
  have h := seqm_consumes (takeClass_consumes isDigitCh 4)
    (seqm_consumes (takeLit_consumes '-')
      (seqm_consumes (takeClass_consumes isDigitCh 2)
        (seqm_consumes (takeLit_consumes '-')
          (seqm_consumes (takeClass_consumes isDigitCh 2)
            (seqm_consumes (takeClass_consumes (fun c => c = 'T' || (ci && c = 't') || isSpaceCh c) 1)
              (seqm_consumes (takeClass_consumes isDigitCh 2)
                (seqm_consumes (takeLit_consumes ':')
                  (seqm_consumes (takeClass_consumes isDigitCh 2)
                    (seqm_consumes (takeLit_consumes ':')
                      (seqm_consumes (takeClass_consumes isDigitCh 2)
                        (seqm_consumes
                          (optm_consumes (seqm_consumes (takeLit_consumes '.')
                            (takeClass_consumes isDigitCh 3)))
                          (optm_consumes
                            (takeClass_consumes (fun c => c = 'Z' || (ci && c = 'z')) 1)))))))))))))
  simpa using h

theorem dropWhile_length_le (p : Char → Bool) (l : List Char) :
    (List.dropWhile p l).length ≤ l.length := by
  induction l with
  | nil => simp [List.dropWhile]
  | cons d ds ih =>
    simp only [List.dropWhile]
    split
    · simp; omega
    · simp

theorem dropWhile_cons_length_lt {p : Char → Bool} {c : Char} {t : List Char}
    (hc : p c = true) :
    (List.dropWhile p (c :: t)).length < (c :: t).length := by
  simp only [List.dropWhile, hc]
  have := dropWhile_length_le p t
  simp
  omega

theorem toNat_ofNat_valid {n : Nat} (h : n < 55296) : (Char.ofNat n).toNat = n := by
  have hv : n.isValidChar := Or.inl h
  simp [Char.ofNat, hv, Char.ofNatAux, Char.toNat, UInt32.ofNat', UInt32.toNat]

theorem jsLowerC_idem (c : Char) : jsLowerC (jsLowerC c) = jsLowerC c := by
  unfold jsLowerC
  by_cases h : 65 ≤ c.toNat ∧ c.toNat ≤ 90
  · rw [if_pos h]
    have h2 : (Char.ofNat (c.toNat + 32)).toNat = c.toNat + 32 := toNat_ofNat_valid (by omega)
    rw [if_neg (by rw [h2]; omega)]
  · rw [if_neg h, if_neg h]

theorem isSpaceCh_jsLowerC (c : Char) : isSpaceCh (jsLowerC c) = isSpaceCh c := by
  unfold jsLowerC
  by_cases h : 65 ≤ c.toNat ∧ c.toNat ≤ 90
  · rw [if_pos h]
    have h2 : (Char.ofNat (c.toNat + 32)).toNat = c.toNat + 32 := toNat_ofNat_valid (by omega)
    have hl : isSpaceCh (Char.ofNat (c.toNat + 32)) = false := by
      simp [isSpaceCh, h2]
      omega
    have hr : isSpaceCh c = false := by
      simp [isSpaceCh]
      omega
    rw [hl, hr]
  · rw [if_neg h]

theorem dw_head_not {p : Char → Bool} {l : List Char} {c : Char}
    (h : (l.dropWhile p).head? = some c) : p c = false := by
  induction l with
  | nil => simp [List.dropWhile] at h
  | cons a t ih =>
    rw [List.dropWhile_cons] at h
    by_cases hp : p a
    · rw [if_pos hp] at h; exact ih h
    · rw [if_neg hp] at h
      simp at h
      rw [← h]
      simpa using hp

theorem dw_of_head_not {p : Char → Bool} {l : List Char}
    (h : ∀ c, l.head? = some c → p c = false) : l.dropWhile p = l := by
  cases l with
  | nil => rfl
  | cons a t =>
    have := h a rfl
    simp [List.dropWhile_cons, this]

theorem dw_idem {p : Char → Bool} (l : List Char) :
    (l.dropWhile p).dropWhile p = l.dropWhile p := by
  apply dw_of_head_not
  intro c h
  exact dw_head_not h

theorem dw_suffix {p : Char → Bool} (l : List Char) : l.dropWhile p <:+ l := by
  induction l with
  | nil => simp
  | cons a t ih =>
    rw [List.dropWhile_cons]
    by_cases hp : p a
    · rw [if_pos hp]
      exact ih.trans (List.suffix_cons a t)
    · rw [if_neg hp]

theorem map_dw {p : Char → Bool} {f : Char → Char} (hf : ∀ c, p (f c) = p c) (l : List Char) :
    (l.dropWhile p).map f = (l.map f).dropWhile p := by
  induction l with
  | nil => rfl
  | cons a t ih =>
    rw [List.map_cons, List.dropWhile_cons, List.dropWhile_cons, hf a]
    by_cases hp : p a
    · rw [if_pos hp, if_pos hp]; exact ih
    · rw [if_neg hp, if_neg hp]; rfl

theorem trimL_dropWhile (l : List Char) : (trimL l).dropWhile isSpaceCh = trimL l := by
  unfold trimL
  set a := l.dropWhile isSpaceCh with ha
  set b := a.reverse.dropWhile isSpaceCh with hb
  apply dw_of_head_not
  intro c h
  rw [List.head?_reverse] at h
  obtain ⟨z, hz⟩ := dw_suffix (p := isSpaceCh) a.reverse
  rw [← hb] at hz
  have hbne : b ≠ [] := by
    intro hnil
    rw [hnil] at h
    simp at h
  have h2 : b.getLast? = a.reverse.getLast? := by
    conv_rhs => rw [← hz]
    rw [List.getLast?_append_of_ne_nil _ hbne]
  rw [h2, List.getLast?_reverse] at h
  exact dw_head_not h

theorem trimL_idem (l : List Char) : trimL (trimL l) = trimL l := by
  conv_lhs => rw [trimL, trimL_dropWhile]
  rw [trimL]
  rw [List.reverse_reverse, dw_idem, ← trimL]

theorem lowerL_idem (l : List Char) : lowerL (lowerL l) = lowerL l := by
  unfold lowerL
  rw [List.map_map]
  apply List.map_congr_left
  intro a _
  exact jsLowerC_idem a

theorem lowerL_trimL_comm (l : List Char) : lowerL (trimL l) = trimL (lowerL l) := by
  unfold trimL lowerL
  rw [List.map_reverse, map_dw isSpaceCh_jsLowerC, List.map_reverse,
    map_dw isSpaceCh_jsLowerC]

theorem trim_lower_fix (y : List Char) :
    trimL (lowerL (trimL (lowerL y))) = trimL (lowerL y) := by
  rw [lowerL_trimL_comm, lowerL_idem, trimL_idem]

theorem find?_decomp {α} {p : α → Bool} {l : List α} {x : α} (h : l.find? p = some x) :
    p x = true ∧ ∃ pre post, l = pre ++ x :: post ∧ ∀ r ∈ pre, p r = false := by
  induction l with
  | nil => simp [List.find?] at h
  | cons a t ih =>
    by_cases hp : p a = true
    · rw [List.find?_cons_of_pos _ hp] at h
      cases h
      exact ⟨hp, [], t, rfl, by simp⟩
    · rw [List.find?_cons_of_neg _ (by simpa using hp)] at h
      obtain ⟨hx, pre, post, heq, hclean⟩ := ih h
      refine ⟨hx, a :: pre, post, by rw [heq]; rfl, ?_⟩
      intro r hr
      rcases List.mem_cons.mp hr with hr | hr
      · subst hr; simpa using hp
      · exact hclean r hr

theorem dupUpdate_clean {p : StoredError → Bool} {g : StoredError → StoredError}
    {pre post : List StoredError} {x : StoredError}
    (hpre : ∀ r ∈ pre, p r = false) (hx : p x = true) :
    dupUpdate p g (pre ++ x :: post) = pre ++ g x :: post := by
  induction pre with
  | nil => simp [dupUpdate, hx]
  | cons a t ih =>
    have ha := hpre a (by simp)
    simp only [List.cons_append, dupUpdate, ha]
    rw [if_neg (by simp [ha]), List.append_eq, ih (fun r hr => hpre r (by simp [hr]))]

theorem dupUpdate_length (p : StoredError → Bool) (g : StoredError → StoredError)
    (l : List StoredError) : (dupUpdate p g l).length = l.length := by
  induction l with
  | nil => rfl
  | cons a t ih =>
    simp only [dupUpdate]
    by_cases hp : p a
    · rw [if_pos hp]; simp
    · rw [if_neg hp]; simp [ih]

theorem similarTo_iff {e : IncomingError} {r : StoredError} :
    similarTo e r = true ↔
      fingerprint r = (e.serverId, e.logFile, normalizeMessage e.errorMessage) := by
  simp [similarTo, fingerprint, Prod.ext_iff, and_assoc]

theorem dupUpdate_map_fp {p : StoredError → Bool} {g : StoredError → StoredError}
    (hg : ∀ r, p r = true → fingerprint (g r) = fingerprint r) (l : List StoredError) :
    (dupUpdate p g l).map fingerprint = l.map fingerprint := by
  induction l with
  | nil => rfl
  | cons a t ih =>
    simp only [dupUpdate]
    by_cases hp : p a
    · rw [if_pos hp]
      simp [hg a hp]
    · rw [if_neg hp]
      simp [ih]

/-- One `addError` call preserves fingerprint-distinctness of the store. -/
theorem addError_fp_nodup (st : MemoryStore) (e : IncomingError) (nowMs : Int)
    (nowIso freshId : String) (h : (st.errors.map fingerprint).Nodup) :
    (((addError st e nowMs nowIso freshId).1.errors).map fingerprint).Nodup := by
  cases hf : findSimilarError st.errors e with
  | some ex =>
    have h2 := hf
    unfold findSimilarError at h2
    have hx : similarTo e ex = true := (find?_decomp h2).1
    have hkey := similarTo_iff.mp hx
    simp only [addError, hf]
    rw [dupUpdate_map_fp, dupUpdate_map_fp]
    · exact h
    · intro r hr
      rw [similarTo_iff.mp hr]
      exact hkey
    · intro r hr
      rw [similarTo_iff.mp hr]
      exact hkey
  | none =>
    have h2 := hf
    unfold findSimilarError at h2
    have hnone := List.find?_eq_none.mp h2
    simp only [addError, hf]
    have hcons : ∀ ne : StoredError,
        fingerprint ne = (e.serverId, e.logFile, normalizeMessage e.errorMessage) →
        ((ne :: st.errors).map fingerprint).Nodup := by
      intro ne hne
      rw [List.map_cons, List.nodup_cons]
      refine ⟨?_, h⟩
      intro hmem
      obtain ⟨r, hr, hfp⟩ := List.mem_map.mp hmem
      have hns := hnone r hr
      apply hns
      rw [similarTo_iff, hfp, hne]
    split
    · rw [List.map_take]
      exact (List.take_sublist _ _).nodup (hcons _ rfl)
    · exact hcons _ rfl

theorem addError_maxErrors (st : MemoryStore) (e : IncomingError) (nowMs : Int)
    (nowIso freshId : String) :
    (addError st e nowMs nowIso freshId).1.maxErrors = st.maxErrors := by
  unfold addError
  cases hf : findSimilarError st.errors e <;> simp

/-- One `addError` call preserves the capacity bound. -/
theorem addError_len (st : MemoryStore) (e : IncomingError) (nowMs : Int)
    (nowIso freshId : String) (h : st.errors.length ≤ st.maxErrors) :
    (addError st e nowMs nowIso freshId).1.errors.length ≤ st.maxErrors := by
  cases hf : findSimilarError st.errors e with
  | some ex =>
    simp only [addError, hf]
    rw [dupUpdate_length, dupUpdate_length]
    exact h
  | none =>
    simp only [addError, hf]
    split
    · rw [List.length_take]
      omega
    · rename_i hgt
      simp only [List.length_cons] at hgt ⊢
      omega

theorem uuidMatch_consumes : Consumes uuidMatch 36 := by
  unfold uuidMatch
  have h := seqm_consumes (takeClass_consumes isHexCh 8)
    (seqm_consumes (takeLit_consumes '-')
      (seqm_consumes (takeClass_consumes isHexCh 4)
        (seqm_consumes (takeLit_consumes '-')
          (seqm_consumes (takeClass_consumes isHexCh 4)
            (seqm_consumes (takeLit_consumes '-')
              (seqm_consumes (takeClass_consumes isHexCh 4)
                (seqm_consumes (takeLit_consumes '-')
                  (takeClass_consumes isHexCh 12))))))))
  simpa using h

/-! ### The message of every non-JSON parser routine is a string -/

theorem parseGenericRaw_str (line : String) (nowIso : String) (nowYear : Nat) :
    (parseGenericRaw line nowIso nowYear).messageJ.isStrB = true := by
  unfold parseGenericRaw
  repeat' split
  all_goals rfl

theorem parseNginxRaw_str (line : String) (nowIso : String) (nowYear : Nat) :
    (parseNginxRaw line nowIso nowYear).messageJ.isStrB = true := by
  unfold parseNginxRaw
  split
  · rfl
  · exact parseGenericRaw_str line nowIso nowYear

theorem parseApacheRaw_str (line : String) (nowIso : String) (nowYear : Nat) :
    (parseApacheRaw line nowIso nowYear).messageJ.isStrB = true := by
  unfold parseApacheRaw
  split
  · rfl
  · exact parseGenericRaw_str line nowIso nowYear

theorem parseSyslogRaw_str (line : String) (nowIso : String) (nowYear : Nat) :
    (parseSyslogRaw line nowIso nowYear).messageJ.isStrB = true := by
  unfold parseSyslogRaw
  split
  · rfl
  · exact parseGenericRaw_str line nowIso nowYear

/-- The JSON routine returns a string message exactly when `parse` would not
throw on this line's JSON path. -/
theorem parseJSONRaw_str (line : String) (nowIso : String) (nowYear : Nat) :
    (parseJSONRaw line nowIso nowYear).messageJ.isStrB = !(jsonThrowsB line) := by
  unfold parseJSONRaw jsonThrowsB
  cases hp : jsonParse line with
  | none => simp [parseGenericRaw_str]
  | some j =>
    by_cases hn : j.isNullB
    · simp [hn, parseGenericRaw_str]
    · simp only [hn, if_false, Bool.not_false, Bool.false_and, Bool.true_and,
        Bool.not_eq_true', eq_self_iff_true]
      cases hl : jSel j ["level", "severity"] with
      | none =>
        simp only [jsonLevelOkB, jsonMsgNonStrB, hl]
        cases hm : jSel j ["message", "msg", "text"] with
        | none => simp [JValue.isStrB]
        | some v => cases v <;> simp [JValue.isStrB]
      | some v =>
        cases v with
        | jstr s =>
          simp only [jsonLevelOkB, jsonMsgNonStrB, hl]
          cases hm : jSel j ["message", "msg", "text"] with
          | none => simp [JValue.isStrB]
          | some w => cases w <;> simp [JValue.isStrB]
        | jnull => simp [jsonLevelOkB, hl, parseGenericRaw_str]
        | jbool b => simp [jsonLevelOkB, hl, parseGenericRaw_str]
        | jnum a b c d => simp [jsonLevelOkB, hl, parseGenericRaw_str]
        | jarr xs => simp [jsonLevelOkB, hl, parseGenericRaw_str]
        | jobj fs => simp [jsonLevelOkB, hl, parseGenericRaw_str]

theorem parseE_isOk (line : String) (lf : LogFileSpec) (nowIso : String) (nowYear : Nat) :
    (parseE line lf nowIso nowYear).isOk = (parseRaw line lf nowIso nowYear).messageJ.isStrB := by
  unfold parseE
  cases h : (parseRaw line lf nowIso nowYear).messageJ <;> simp [h, JValue.isStrB, Except.isOk, Except.toBool]

/-! ## Claim C9 — normalization idempotence -/

/-- C9, counterexample.  `normalizeMessage` is *not* idempotent: the first
pass replaces the leading UUID with `UUID`, whose trailing `d` (lowercased)
then combines with the following hex characters into a fresh UUID-shaped
match, which only the second pass replaces.  (First pass:
`"uuideadbeef-beef-beef-beef-beefbeefbeef"`; second pass: `"uuiuuid"`.) -/
theorem claim_C9_counterexample :
    normalizeMessage (normalizeMessage
        ("aaaaaaaa-aaaa-aaaa-aaaa-aaaaaaaaaaaaeadbeef-beef-beef-beef-beefbeefbeef")) ≠
      normalizeMessage
        ("aaaaaaaa-aaaa-aaaa-aaaa-aaaaaaaaaaaaeadbeef-beef-beef-beef-beefbeefbeef") := by
  decide

/-- C9, amended: `normalizeMessage` is not idempotent in general (see the
counterexample); it is idempotent on every message whose normalization is
left fixed by the three substitution passes (timestamp, number, UUID) —
re-normalizing such a message only lowercases and trims again, which are
identities on normalized output. -/
theorem claim_C9 (m : String)
    (ht : replaceT (normalizeMessage m).data = (normalizeMessage m).data)
    (hn : replaceN false (normalizeMessage m).data = (normalizeMessage m).data)
    (hu : replaceU (normalizeMessage m).data = (normalizeMessage m).data) :
    normalizeMessage (normalizeMessage m) = normalizeMessage m := by
  conv_lhs => rw [normalizeMessage]
  rw [ht, hn, hu]
  conv_lhs => rw [normalizeMessage]
  conv_rhs => rw [normalizeMessage]
  exact congrArg String.mk (trim_lower_fix _)

/-- C9, witness for the amended theorem at a concrete message. -/
theorem claim_C9_witness :
    normalizeMessage (normalizeMessage ("Error 404 happened  ")) =
      normalizeMessage ("Error 404 happened  ") :=
  claim_C9 ("Error 404 happened  ") (by decide) (by decide) (by decide)

/-! ## Claim C2 — totality of `parse` -/

/-- C2, counterexample.  `parse('{"message":123}', jsonSpec)` throws: the
JSON path succeeds and selects the number `123` as `message`, and
`extractSemantics(result.message)` then calls `.toLowerCase()` on a
number — a `TypeError` escaping `parse`. -/
theorem claim_C2_counterexample :
    parseE ("\x7b\"message\":123\x7d") lfJson ("NOW") 2026 = .error () := rfl

/-- C2, amended: `parse(line, spec)` returns a `ParsedEvent` for every line
and spec *except* exactly when the line is routed to the JSON path
(`spec.type = json`, or `auto` with a brace-led line) and the parsed JSON is
non-null, selects a level that is absent/falsy or a string (so the `try`
block completes), and selects a truthy non-string `message` — in which case
`parse` throws a `TypeError`. -/
theorem claim_C2 (line : String) (lf : LogFileSpec) (nowIso : String) (nowYear : Nat) :
    (parseE line lf nowIso nowYear).isOk = !(jsonPathB line lf && jsonThrowsB line) := by
  rw [parseE_isOk]
  unfold parseRaw jsonPathB
  cases lf.ftype with
  | nginx => simp [parseNginxRaw_str]
  | apache => simp [parseApacheRaw_str]
  | syslog => simp [parseSyslogRaw_str]
  | json => simp [parseJSONRaw_str]
  | auto =>
    unfold parseAutoRaw
    by_cases hb : jsStartsWith (jsTrim line) ("\x7b")
    · simp [hb, parseJSONRaw_str]
    · rw [if_neg hb]
      simp only [hb, Bool.and_false, Bool.false_or]
      repeat' split
      all_goals
        simp [parseNginxRaw_str, parseApacheRaw_str, parseSyslogRaw_str, parseGenericRaw_str]

/-! ## Claim C5 — tailer truncation handling -/

/-- C5, counterexample.  A tailer whose cursor sits at 20 (the size the file
had before truncation): truncating to size 0 fires no read (`0 > 20` is
false), and after appending `"ERROR: x"` (size 8) the read returns without
delivering anything because `8 ≤ 20` — the cursor is never reset to 0 and the
appended line is not delivered, contradicting the claimed rotation
behavior. -/
theorem claim_C5_counterexample :
    pollTick 20 ([]) 20 = (20, []) ∧
    pollTick 0 (("ERROR: x").data) 20 = (20, []) ∧
    (pollTick 0 (("ERROR: x").data) 20).2 ≠ [("ERROR: x").data] ∧
    (pollTick 0 (("ERROR: x").data) 20).1 ≠ 0 := by
  decide

/-- C5, amended: when the current size is smaller than the stored cursor the
tailer performs no reset at all — `readNewLines` returns without delivering
lines and leaves the cursor unchanged, on every poll tick.  (Appended lines
are therefore only delivered once the file outgrows the stale cursor.) -/
theorem claim_C5 (content : List Char) (pos : Nat) (h : content.length < pos) :
    readNewLinesF content pos = (pos, []) ∧
    ∀ prevSize, pollTick prevSize content pos = (pos, []) := by
  have hr : readNewLinesF content pos = (pos, []) := by
    unfold readNewLinesF
    rw [if_pos (by omega)]
  refine ⟨hr, fun prevSize => ?_⟩
  unfold pollTick
  by_cases hg : content.length > prevSize
  · rw [if_pos hg, hr]
  · rw [if_neg hg]

/-- C5, witness: the amended theorem at the truncated-file instance. -/
theorem claim_C5_witness :
    readNewLinesF (("ERROR: x").data) 20 = (20, []) ∧
    ∀ prevSize, pollTick prevSize (("ERROR: x").data) 20 = (20, []) :=
  claim_C5 (("ERROR: x").data) 20 (by decide)

/-! ## Claim C6 — reconnect backoff and the attempt cap -/

/-- C6, counterexample.  With `maxReconnectAttempts = 0` the claim says the
attempt count (0) has already reached the maximum, so no reconnect may be
scheduled; the code's guard is `maxReconnectAttempts > 0 && ...`, so it
schedules attempt 1 after the base delay anyway. -/
theorem claim_C6_counterexample :
    scheduleReconnect 0 5000 0 = some (1, 5000) ∧ scheduleReconnect 0 5000 0 ≠ none := by
  decide

/-- C6, amended: the `n`-th consecutive reconnect attempt is scheduled after
`min(baseDelay · 2^(n−1), 60000)` ms and the counter resets on a successful
open, as claimed — but the attempt cap only operates for *positive* configured
maxima: with `maxAttempts ≤ 0` (including the claimed case 0, and the default
−1) reconnects never stop. -/
theorem claim_C6 (maxA : Int) (base : Nat) (n : Nat) (h : 1 ≤ n) :
    (reconnectSeq maxA base n =
      if 0 < maxA ∧ maxA < (n : Int) then none
      else some (n, min (base * 2 ^ (n - 1)) 60000)) ∧
    ∀ st : AgentConnState, (onSocketOpen st).reconnectAttempts = 0 := by
  refine ⟨?_, fun st => rfl⟩
  induction n with
  | zero => omega
  | succ k ih =>
    by_cases hk : k = 0
    · subst hk
      simp only [reconnectSeq, scheduleReconnect]
      have h1 : ¬(0 < maxA ∧ (0 : Nat) ≥ maxA) := by
        rintro ⟨a, b⟩
        simp at b
        omega
      rw [if_neg (by exact_mod_cast h1)]
      have h2 : ¬(0 < maxA ∧ maxA < ((1 : Nat) : Int)) := by
        rintro ⟨a, b⟩
        omega
      rw [if_neg h2]
    · have ih2 := ih (by omega)
      rw [reconnectSeq, ih2]
      by_cases hc : 0 < maxA ∧ maxA < (k : Int)
      · rw [if_pos hc, if_pos ⟨hc.1, by push_cast; omega⟩]
      · rw [if_neg hc]
        simp only [scheduleReconnect]
        by_cases hstop : 0 < maxA ∧ (k : Int) ≥ maxA
        · rw [if_pos hstop, if_pos ⟨hstop.1, by push_cast; omega⟩]
        · rw [if_neg hstop]
          have : ¬(0 < maxA ∧ maxA < ((k + 1 : Nat) : Int)) := by
            rintro ⟨a, b⟩
            push_cast at b
            exact hstop ⟨a, by omega⟩
          rw [if_neg this]
          simp

/-- C6, witness: with the default `maxReconnectAttempts = -1`, the third
consecutive attempt is scheduled after `min(5000·2², 60000) = 20000` ms. -/
theorem claim_C6_witness :
    (reconnectSeq (-1) 5000 3 =
      if 0 < (-1 : Int) ∧ (-1 : Int) < ((3 : Nat) : Int) then none
      else some (3, min (5000 * 2 ^ (3 - 1)) 60000)) ∧
    ∀ st : AgentConnState, (onSocketOpen st).reconnectAttempts = 0 :=
  claim_C6 (-1) 5000 3 (by decide)

/-! ## Claim C7 — search fallback (code bug) -/

/-- C7.  The fallback substring search reads `e.server`, a property stored
records never have (they are built from the agent's `error.data` payload,
which carries `serverName`): searching `"alpha"` over a store whose only
record has `serverName = "alpha"` but message `"boom"` throws a `TypeError`
at `e.server.toLowerCase()` instead of returning the record.  (The empty
query does return the 50 most recent, as claimed.) -/
theorem claim_C7 :
    searchStore c7store ("alpha") = .error () ∧
    searchStore c7store ("") = .ok (c7store.errors.take 50) ∧
    c7store.errors.map (fun e => e.serverName) = ["alpha"] := by
  refine ⟨rfl, rfl, rfl⟩

/-! ## Claim C8 — `/api/servers` leaks the transport handle (code bug) -/

/-- C8.  After one agent registration the `/api/servers` response is built
from the registry records as-is: the record passed to `JSON.stringify` still
holds the live transport handle in its `ws` field, so the serialized record
includes `"ws"` — the claim's "no transport handle" fails.  (On a real `ws`
socket `JSON.stringify` can even throw on the socket's circular structure,
turning the claimed 200 into a 500.) -/
theorem claim_C8 :
    (apiServers c8agents).1 = 200 ∧
    (apiServers c8agents).2 = [agentOfRegister c8register 7 t0iso] ∧
    (agentOfRegister c8register 7 t0iso).ws = some 7 ∧
    "ws" ∈ serializeAgentFields (agentOfRegister c8register 7 t0iso) := by
  refine ⟨rfl, rfl, rfl, by decide⟩

/-! ## Claim C1 — insights re-derived on every ingest -/

/-- C1, counterexample.  A reachable store (12 ingests at `t0`, whose stored
insight list holds an anomaly and a recommendation) merged with a duplicate
ten hours later: the duplicate branch of `addError` returns with the stored
insight list untouched, while re-deriving insights from the resulting store
state (as the claim requires) would drop the now-stale anomaly. -/
theorem claim_C1_counterexample :
    c1st13.insights ≠ generateInsights c1st13.errors c1st13.patterns c1now2 := by
  decide

/-- C1, amended: insights are re-derived from the current store state only on
the new-record branch of `addError`; on the duplicate branch the insight list
is returned exactly as it was before the call. -/
theorem claim_C1 (st : MemoryStore) (e : IncomingError) (nowMs : Int) (nowIso freshId : String) :
    (addError st e nowMs nowIso freshId).1.insights =
      match findSimilarError st.errors e with
      | some _ => st.insights
      | none =>
        generateInsights (addError st e nowMs nowIso freshId).1.errors
          (addError st e nowMs nowIso freshId).1.patterns nowMs := by
  unfold addError
  cases h : findSimilarError st.errors e <;> simp [h]

/-! ## Claim C3 — fingerprint uniqueness -/

/-- C3.  Starting from the empty store, after any finite sequence of
`addError` calls no two stored records share a fingerprint
`(serverId, logFile, normalize(errorMessage))`: the duplicate branch rewrites
one record in place without touching its fingerprint fields, and the new
branch only inserts when no record matches the incoming fingerprint. -/
theorem claim_C3 (calls : List AddCall) :
    (((runAdds emptyStore calls).errors).map fingerprint).Nodup := by
  have gen : ∀ (cs : List AddCall) (st : MemoryStore),
      (st.errors.map fingerprint).Nodup →
      (((runAdds st cs).errors).map fingerprint).Nodup := by
    intro cs
    induction cs with
    | nil => intro st h; exact h
    | cons c t ih =>
      intro st h
      exact ih _ (addError_fp_nodup st c.e c.nowMs c.nowIso c.freshId h)
  exact gen calls emptyStore (by simp [emptyStore])

/-! ## Claim C4 — bounded storage, oldest entries discarded -/

theorem runAdds_maxErrors (cs : List AddCall) (st : MemoryStore) :
    (runAdds st cs).maxErrors = st.maxErrors := by
  induction cs generalizing st with
  | nil => rfl
  | cons c t ih =>
    rw [runAdds, ih, addError_maxErrors]

/-- C4.  (i) From the empty store (whose `maxErrors` is the default 1000),
every `addError` call leaves at most 1000 stored records.  (ii) On an
insertion, the resulting list is exactly the first `maxErrors` entries of
`newRecord :: oldErrors`, and the discarded entries are exactly the trailing
`drop maxErrors` — the oldest records in the most-recent-first order. -/
theorem claim_C4 :
    (∀ calls : List AddCall, (runAdds emptyStore calls).errors.length ≤ 1000) ∧
    (∀ (st : MemoryStore) (e : IncomingError) (nowMs : Int) (nowIso freshId : String),
      findSimilarError st.errors e = none →
      (addError st e nowMs nowIso freshId).1.errors =
        ((addError st e nowMs nowIso freshId).2 :: st.errors).take st.maxErrors ∧
      (addError st e nowMs nowIso freshId).2 :: st.errors =
        (addError st e nowMs nowIso freshId).1.errors ++
          ((addError st e nowMs nowIso freshId).2 :: st.errors).drop st.maxErrors) := by
  constructor
  · intro calls
    have gen : ∀ (cs : List AddCall) (st : MemoryStore),
        st.errors.length ≤ st.maxErrors →
        (runAdds st cs).errors.length ≤ (runAdds st cs).maxErrors := by
      intro cs
      induction cs with
      | nil => intro st h; exact h
      | cons c t ih =>
        intro st h
        rw [runAdds]
        apply ih
        rw [addError_maxErrors]
        exact addError_len st c.e c.nowMs c.nowIso c.freshId h
    have h1 := gen calls emptyStore (by simp [emptyStore])
    rwa [runAdds_maxErrors] at h1
  · intro st e nowMs nowIso freshId hf
    simp only [addError, hf]
    split
    · exact ⟨rfl, (List.take_append_drop _ _).symm⟩
    · rename_i hle
      simp only [List.length_cons] at hle
      constructor
      · rw [List.take_of_length_le (by simp; omega)]
      · rw [List.drop_eq_nil_of_le (by simp; omega), List.append_nil]

/-! ## Claim C10 — frame condition of the duplicate branch -/

/-- C10.  When the incoming error's fingerprint matches a stored record, the
call mutates only that record's `count`, `lastSeen` and `trend`: the store
decomposes as `pre ++ ex :: post` before and `pre ++ ex2 :: post` after (same
`pre` and `post`, so membership and order are unchanged), and every other
field of `ex2` equals its value in `ex`. -/
theorem claim_C10 (st : MemoryStore) (e : IncomingError) (nowMs : Int) (nowIso freshId : String)
    (ex : StoredError) (h : findSimilarError st.errors e = some ex) :
    ∃ pre post ex2,
      st.errors = pre ++ ex :: post ∧
      (addError st e nowMs nowIso freshId).1.errors = pre ++ ex2 :: post ∧
      (addError st e nowMs nowIso freshId).2 = ex2 ∧
      ex2.id = ex.id ∧ ex2.firstSeen = ex.firstSeen ∧ ex2.timestamp = ex.timestamp ∧
      ex2.errorMessage = ex.errorMessage ∧ ex2.category = ex.category ∧
      ex2.severity = ex.severity ∧ ex2.serverId = ex.serverId ∧ ex2.logFile = ex.logFile ∧
      ex2.urgency = ex.urgency ∧ ex2.semantics = ex.semantics ∧
      ex2.serverName = ex.serverName ∧ ex2.lineNumber = ex.lineNumber ∧
      ex2.parser = ex.parser ∧ ex2.count = ex.count + 1 ∧ ex2.lastSeen = tsOf e nowIso := by
  have h2 := h
  unfold findSimilarError at h2
  obtain ⟨hx, pre, post, heq, hclean⟩ := find?_decomp h2
  have hx1 : similarTo e ({ ex with count := ex.count + 1, lastSeen := tsOf e nowIso }) = true := hx
  have eq1 : dupUpdate (similarTo e)
      (fun _ => { ex with count := ex.count + 1, lastSeen := tsOf e nowIso }) st.errors =
      pre ++ ({ ex with count := ex.count + 1, lastSeen := tsOf e nowIso } : StoredError) :: post := by
    rw [heq]
    exact dupUpdate_clean hclean hx
  simp only [addError, h]
  refine ⟨pre, post, _, heq, ?_, rfl, rfl, rfl, rfl, rfl, rfl, rfl, rfl, rfl, rfl, rfl,
    rfl, rfl, rfl, rfl, rfl⟩
  rw [eq1]
  exact dupUpdate_clean hclean hx1

/-- C4, witness: the theorem applied to a three-call trace and to a concrete
fresh insertion into the empty store. -/
theorem claim_C4_witness :
    ((runAdds emptyStore ((List.range 3).map c1call)).errors.length ≤ 1000) ∧
    ((addError emptyStore c10incoming t0ms t0iso ("j0")).1.errors =
      ((addError emptyStore c10incoming t0ms t0iso ("j0")).2 :: emptyStore.errors).take
        emptyStore.maxErrors ∧
     (addError emptyStore c10incoming t0ms t0iso ("j0")).2 :: emptyStore.errors =
      (addError emptyStore c10incoming t0ms t0iso ("j0")).1.errors ++
        ((addError emptyStore c10incoming t0ms t0iso ("j0")).2 :: emptyStore.errors).drop
          emptyStore.maxErrors) :=
  ⟨claim_C4.1 ((List.range 3).map c1call),
   claim_C4.2 emptyStore c10incoming t0ms t0iso ("j0") (by decide)⟩

/-- C10, witness: merging a duplicate into a one-record store. -/
theorem claim_C10_witness :
    ∃ pre post ex2,
      c10store.errors = pre ++ c10stored :: post ∧
      (addError c10store c10incoming t0ms t0iso ("j1")).1.errors = pre ++ ex2 :: post ∧
      (addError c10store c10incoming t0ms t0iso ("j1")).2 = ex2 ∧
      ex2.id = c10stored.id ∧ ex2.firstSeen = c10stored.firstSeen ∧
      ex2.timestamp = c10stored.timestamp ∧
      ex2.errorMessage = c10stored.errorMessage ∧ ex2.category = c10stored.category ∧
      ex2.severity = c10stored.severity ∧ ex2.serverId = c10stored.serverId ∧
      ex2.logFile = c10stored.logFile ∧ ex2.urgency = c10stored.urgency ∧
      ex2.semantics = c10stored.semantics ∧ ex2.serverName = c10stored.serverName ∧
      ex2.lineNumber = c10stored.lineNumber ∧ ex2.parser = c10stored.parser ∧
      ex2.count = c10stored.count + 1 ∧ ex2.lastSeen = tsOf c10incoming t0iso :=
  claim_C10 c10store c10incoming t0ms t0iso ("j1") c10stored (by decide)

end LogSV
